import Mathlib

/-!
Verification development for the jira-api-cycle-times repository
(`src/jira_client.py`).

The file shallowly embeds the status-history reduction, cycle-time
computation, aggregation and rendering pipeline of `jira_client.py`:

* Python `datetime` values are modelled by `PyDateTime` (second precision,
  which is exactly what `datetime.strptime(s[:19], "%Y-%m-%dT%H:%M:%S")`
  produces); `timedelta` by `PyTimedelta` with Python's normalisation
  (`days` is the floor of the total duration in days).
* JSON dictionaries coming from the tracker are modelled by structures with
  `Option` fields where the code uses `.get` with a default, and code paths
  that subscript a possibly missing key (`history["created"]`) or call a
  fallible parser (`datetime.strptime`) are embedded in `Except String`,
  an error corresponding to the Python exception escaping.
* Python float arithmetic on averages is modelled by exact rationals `Rat`;
  the `:.1f` format is modelled by round-half-to-even at one decimal.
* Mojibake glyphs that appear literally in the source file are transcribed
  codepoint-for-codepoint with `\u` escapes.
-/

set_option maxRecDepth 100000

deriving instance DecidableEq for Except

/-- Python's `str.lower` (ASCII case folding; status names are ASCII).
Implemented on the character list so that it evaluates inside the kernel,
which the byte-position-based `String.toLower` of the standard library
does not. -/
def pyLower (s : String) : String := String.mk (s.data.map Char.toLower)

/-- Python's `str.strip`: drop leading and trailing whitespace. -/
def pyStrip (s : String) : String :=
  String.mk (((s.data.dropWhile Char.isWhitespace).reverse.dropWhile
    Char.isWhitespace).reverse)

/-- Python's `s[:n]` slice on strings. -/
def pyTake (n : Nat) (s : String) : String := String.mk (s.data.take n)

/-- Helper of `pySplitComma`. -/
def splitCommaAux : List Char → List Char → List (List Char)
  | [], acc => [acc.reverse]
  | c :: rest, acc =>
    if c = ',' then acc.reverse :: splitCommaAux rest []
    else splitCommaAux rest (c :: acc)

/-- Python's `s.split(",")`. -/
def pySplitComma (s : String) : List String := (splitCommaAux s.data []).map String.mk

/-- Embedding of `s.lower().strip()` as applied by `calculate_cycle_time` to both the
configured status lists (lines 282-283) and each transition's `toString`
value (line 291). -/
def lowerStrip (s : String) : String := pyStrip (pyLower s)

/-- Embedding of `parse_labels` (lines 166-174): split a comma-separated string, strip
whitespace from each piece and drop empty pieces. -/
def parse_labels (labels_string : String) : List String :=
  if pyStrip labels_string = "" then []
  else ((pySplitComma labels_string).map pyStrip).filter (fun l => l != "")

/-- Default of the `--in-progress-statuses` flag (line 132), fed through
`parse_labels` as `main` does (line 713). -/
def default_in_progress_statuses : List String :=
  parse_labels "In Progress,In Development,In Review,Active"

/-- Default of the `--done-statuses` flag (line 139), fed through
`parse_labels` as `main` does (line 714). -/
def default_done_statuses : List String :=
  parse_labels "Done,Closed,Resolved,Completed"

/-- A `datetime.datetime` as produced by
`datetime.strptime(created[:19], "%Y-%m-%dT%H:%M:%S")`: naive, second
precision. -/
structure PyDateTime where
  year : Nat
  month : Nat
  day : Nat
  hour : Nat
  minute : Nat
  second : Nat
deriving DecidableEq, Repr

/-- Decimal digit value of a character, `none` for a non-digit. -/
def digitVal (c : Char) : Option Nat :=
  if c.isDigit then some (c.toNat - 48) else none

/-- Two-digit decimal number. -/
def parse2 (a b : Char) : Option Nat := do
  let x ← digitVal a
  let y ← digitVal b
  pure (10 * x + y)

/-- Four-digit decimal number. -/
def parse4 (a b c d : Char) : Option Nat := do
  let x ← parse2 a b
  let y ← parse2 c d
  pure (100 * x + y)

/-- Gregorian leap-year rule (as used by `datetime`). -/
def isLeap (y : Nat) : Bool :=
  (y % 4 = 0 && y % 100 != 0) || y % 400 = 0

/-- Number of days in a month, used by `strptime` to validate the day. -/
def daysInMonth (y m : Nat) : Nat :=
  if m = 2 then (if isLeap y then 29 else 28)
  else if m = 4 || m = 6 || m = 9 || m = 11 then 30
  else 31

/-- Embedding of `datetime.strptime(s[:19], "%Y-%m-%dT%H:%M:%S")` (line 287).  The
source always slices to the first 19 characters first, so the embedded
parser expects the fixed-width `YYYY-MM-DDTHH:MM:SS` shape and validates
the same ranges `datetime` does; `none` models the `ValueError` raised on
malformed input. -/
def strptime19 (s : String) : Option PyDateTime :=
  match (pyTake 19 s).data with
  | [y1, y2, y3, y4, c1, m1, m2, c2, d1, d2, c3, h1, h2, c4, n1, n2, c5, s1, s2] =>
    if c1 = '-' && c2 = '-' && c3 = 'T' && c4 = ':' && c5 = ':' then do
      let y ← parse4 y1 y2 y3 y4
      let mo ← parse2 m1 m2
      let d ← parse2 d1 d2
      let h ← parse2 h1 h2
      let mi ← parse2 n1 n2
      let sec ← parse2 s1 s2
      if 1 ≤ y && 1 ≤ mo && mo ≤ 12 && 1 ≤ d && d ≤ daysInMonth y mo
          && h ≤ 23 && mi ≤ 59 && sec ≤ 59 then
        pure ⟨y, mo, d, h, mi, sec⟩
      else none
    else none
  | _ => none

/-- Day number of a civil date on a proleptic Gregorian calendar (days
since 0000-03-01); only differences of the function matter here, which is
all `timedelta` arithmetic uses. -/
def daysFromCivil (y m d : Nat) : Nat :=
  let y' := if m ≤ 2 then y - 1 else y
  let era := y' / 400
  let yoe := y' - era * 400
  let mp := if m > 2 then m - 3 else m + 9
  let doy := (153 * mp + 2) / 5 + d - 1
  let doe := yoe * 365 + yoe / 4 - yoe / 100 + doy
  era * 146097 + doe

/-- A `PyDateTime` as an absolute number of seconds (offset irrelevant,
only differences are taken). -/
def toSeconds (t : PyDateTime) : Int :=
  (daysFromCivil t.year t.month t.day : Int) * 86400
    + t.hour * 3600 + t.minute * 60 + t.second

/-- A `datetime.timedelta`, normalised the way Python normalises it:
`days` is the floor of the duration in whole days and
`0 ≤ seconds < 86400`. -/
structure PyTimedelta where
  days : Int
  seconds : Int
deriving DecidableEq, Repr

/-- Embedding of `a - b` on `datetime` values, yielding a normalised `timedelta`
(line 304). -/
def pySub (a b : PyDateTime) : PyTimedelta :=
  let total := toSeconds a - toSeconds b
  { days := Int.fdiv total 86400, seconds := Int.emod total 86400 }

/-- One element of a changelog history's `items` array.  The code reads
both keys with `.get` (lines 290-291), so a missing key is `none`, never
an error. -/
structure HistoryItem where
  field : Option String
  toString : Option String
deriving DecidableEq, Repr

/-- One element of `changelog.histories`.  `created` is read with a bare
subscript `history["created"]` (line 287), so the missing-key case must be
representable: it is `none` here and raises in the code. -/
structure History where
  created : Option String
  items : List HistoryItem
deriving DecidableEq, Repr

/-- An issue as consumed by the pipeline: `key`, `fields.summary`,
`fields.status.name`, `fields.labels` (defaulting to `[]`),
`fields.components` (modelled by the component names, the only part the
code reads), and `changelog.histories` (defaulting to `[]`, which also
covers a missing `changelog`). -/
structure Issue where
  key : String
  summary : String
  status : String
  labels : List String
  components : List String
  histories : List History
deriving DecidableEq, Repr

/-- The dictionary returned by `JiraClient.calculate_cycle_time`
(lines 307-311). -/
structure CycleInfo where
  in_progress_date : Option PyDateTime
  done_date : Option PyDateTime
  cycle_time_days : Option Int
deriving DecidableEq, Repr

/-- The accumulator of the scan in `calculate_cycle_time`: the current
values of `in_progress_date` and `done_date` (lines 278-279). -/
abbrev DatePair := Option PyDateTime × Option PyDateTime

/-- The inner loop of `calculate_cycle_time` over `history["items"]`
(lines 289-299): for an item whose `field` is `"status"`, lower-case and
strip its `toString` (missing `toString` defaults to the empty string) and
update `in_progress_date` if it is in the in-progress list, otherwise
(`elif`) `done_date` if it is in the done list. -/
def scan_items (ipl dl : List String) (created : PyDateTime) :
    List HistoryItem → DatePair → DatePair
  | [], acc => acc
  | item :: rest, acc =>
    let acc' :=
      if item.field = some "status" then
        let to_status := lowerStrip (item.toString.getD "")
        if ipl.contains to_status then (some created, acc.2)
        else if dl.contains to_status then (acc.1, some created)
        else acc
      else acc
    scan_items ipl dl created rest acc'

/-- The outer loop of `calculate_cycle_time` over `changelog.histories`
(lines 286-299).  `history["created"]` is a bare subscript, so a history
without a `created` key raises `KeyError`, and an unparseable value makes
`strptime` raise `ValueError`; both abort the whole computation, which the
embedding records as `Except.error`. -/
def scan_histories (ipl dl : List String) :
    List History → DatePair → Except String DatePair
  | [], acc => .ok acc
  | h :: rest, acc =>
    match h.created with
    | none => .error "KeyError: created"
    | some s =>
      match strptime19 s with
      | none => .error "ValueError: time data does not match format"
      | some created =>
        scan_histories ipl dl rest (scan_items ipl dl created h.items acc)

/-- The tail of `calculate_cycle_time` (lines 301-311): the pure
Cycle-Time Calculator over the two extracted timestamps.  `cycle_time_days`
is set only when both dates are present (`if in_progress_date and
done_date`), and is `(done_date - in_progress_date).days`; the two dates
are returned exactly as found. -/
def cycle_from_dates (in_progress_date done_date : Option PyDateTime) : CycleInfo :=
  match in_progress_date, done_date with
  | some ip, some dn =>
    { in_progress_date := some ip, done_date := some dn,
      cycle_time_days := some (pySub dn ip).days }
  | _, _ =>
    { in_progress_date := in_progress_date, done_date := done_date,
      cycle_time_days := none }

/-- Embedding of `JiraClient.calculate_cycle_time` (lines 273-311): lower-case and
strip the two configured status lists, scan the histories, then derive the
cycle time. -/
def calculate_cycle_time (issue : Issue)
    (in_progress_statuses done_statuses : List String) :
    Except String CycleInfo := do
  let ipl := in_progress_statuses.map lowerStrip
  let dl := done_statuses.map lowerStrip
  let (ip, dn) ← scan_histories ipl dl issue.histories (none, none)
  return cycle_from_dates ip dn

/-- Parsing phase of the history scan, separated out for specification
purposes: parse every history's `created` timestamp (failing exactly where
`calculate_cycle_time` fails), keeping the items. -/
def parseHistories : List History → Except String (List (PyDateTime × List HistoryItem))
  | [] => .ok []
  | h :: rest =>
    match h.created with
    | none => .error "KeyError: created"
    | some s =>
      match strptime19 s with
      | none => .error "ValueError: time data does not match format"
      | some created => do
        let r ← parseHistories rest
        return (created, h.items) :: r

/-- The status-transition events of a parsed changelog, in scan order:
each history's items with `field = "status"`, tagged with the history's
timestamp, the `toString` value lower-cased and stripped. -/
def statusEvents (phs : List (PyDateTime × List HistoryItem)) :
    List (PyDateTime × String) :=
  phs.flatMap (fun p =>
    p.2.filterMap (fun item =>
      if item.field = some "status" then
        some (p.1, lowerStrip (item.toString.getD ""))
      else none))

/-- The effect of a single status event on the `(in_progress_date,
done_date)` accumulator: the `if`/`elif` of lines 294-299. -/
def eventStep (ipl dl : List String) (acc : DatePair) (e : PyDateTime × String) :
    DatePair :=
  if ipl.contains e.2 then (some e.1, acc.2)
  else if dl.contains e.2 then (acc.1, some e.1)
  else acc

/-- The timestamp of the last event in `evs` whose (normalised) target
status satisfies `p`, if any: the reduction the spec describes as "last
matching transition wins". -/
def lastMatchTime (evs : List (PyDateTime × String)) (p : String → Bool) :
    Option PyDateTime :=
  (evs.reverse.find? (fun e => p e.2)).map (fun e => e.1)

/-- One entry of an aggregation group: the dictionary appended by
`analyze_components` (lines 339-344) and `analyze_labels`
(lines 529-534). -/
structure Ticket where
  key : String
  summary : String
  cycle_time : Int
  cycle_info : CycleInfo
deriving DecidableEq, Repr

/-- Embedding of `data[name].append(t)` on a Python dict-of-lists, with
`data[name] = []` first when the key is new (lines 336-338): an existing
key keeps its position and gets the entry appended; a new key is appended
at the end, matching dict insertion order. -/
def addTicket (data : List (String × List Ticket)) (name : String) (t : Ticket) :
    List (String × List Ticket) :=
  match data with
  | [] => [(name, [t])]
  | (k, ts) :: rest =>
    if k = name then (k, ts ++ [t]) :: rest
    else (k, ts) :: addTicket rest name t

/-- The tickets of group `name` of an aggregation mapping (empty when the
group is absent). -/
def groupTickets (data : List (String × List Ticket)) (name : String) :
    List Ticket :=
  (((data.find? (fun g => g.1 == name)).map (fun g => g.2)).getD [])

/-- Embedding of `component_names` of an issue (line 332): the component names, or the
sentinel `"No components"` when the issue has none. -/
def componentNames (issue : Issue) : List String :=
  if issue.components = [] then ["No components"] else issue.components

/-- Embedding of `label_names` of an issue (line 522): the labels as given (duplicates
preserved), or the sentinel `"No labels"` when the issue has none. -/
def labelNames (issue : Issue) : List String :=
  if issue.labels = [] then ["No labels"] else issue.labels

/-- The ticket dictionary `analyze_components`/`analyze_labels` append
for an issue with cycle time `ct`. -/
def mkTicket (issue : Issue) (ct : Int) (info : CycleInfo) : Ticket :=
  { key := issue.key, summary := issue.summary, cycle_time := ct,
    cycle_info := info }

/-- Loop of `analyze_components` (lines 318-344): compute each issue's
cycle time (a raised exception propagates), skip the issue when the day
count is absent, and otherwise append its ticket to every component group
it belongs to.  `acc` is the dictionary built so far. -/
def analyze_components_go (ips ds : List String)
    (acc : List (String × List Ticket)) :
    List Issue → Except String (List (String × List Ticket))
  | [] => .ok acc
  | issue :: rest => do
    let cycle_info ← calculate_cycle_time issue ips ds
    match cycle_info.cycle_time_days with
    | none => analyze_components_go ips ds acc rest
    | some ct =>
      analyze_components_go ips ds
        ((componentNames issue).foldl
          (fun d name => addTicket d name (mkTicket issue ct cycle_info)) acc)
        rest

/-- Embedding of `analyze_components` (lines 314-346). -/
def analyze_components (issues : List Issue) (ips ds : List String) :
    Except String (List (String × List Ticket)) :=
  analyze_components_go ips ds [] issues

/-- Loop of `analyze_labels` (lines 508-534), identical to the component
loop except for the dimension extractor. -/
def analyze_labels_go (ips ds : List String)
    (acc : List (String × List Ticket)) :
    List Issue → Except String (List (String × List Ticket))
  | [] => .ok acc
  | issue :: rest => do
    let cycle_info ← calculate_cycle_time issue ips ds
    match cycle_info.cycle_time_days with
    | none => analyze_labels_go ips ds acc rest
    | some ct =>
      analyze_labels_go ips ds
        ((labelNames issue).foldl
          (fun d name => addTicket d name (mkTicket issue ct cycle_info)) acc)
        rest

/-- Embedding of `analyze_labels` (lines 504-536). -/
def analyze_labels (issues : List Issue) (ips ds : List String) :
    Except String (List (String × List Ticket)) :=
  analyze_labels_go ips ds [] issues

/-- Per-group statistics as computed identically at lines 360-368,
457-465, 550-558 and 599-607 (the four display/format functions duplicate
this code verbatim): count, total, average (exact rational in place of the
Python float), min and max of the `cycle_time` values, plus the ticket
list. -/
structure Stats where
  count : Nat
  total : Int
  average : Rat
  min : Int
  max : Int
  tickets : List Ticket
deriving DecidableEq, Repr

/-- Statistics of one group's ticket list; `none` for an empty list, which
the `if tickets:` guard skips. -/
def stats_of : List Ticket → Option Stats
  | [] => none
  | t :: ts =>
    let cycle_times := (t :: ts).map (fun x => x.cycle_time)
    some { count := (t :: ts).length,
           total := cycle_times.sum,
           average := (cycle_times.sum : Rat) / ((t :: ts).length : Rat),
           min := ts.foldl (fun a x => Min.min a x.cycle_time) t.cycle_time,
           max := ts.foldl (fun a x => Max.max a x.cycle_time) t.cycle_time,
           tickets := t :: ts }

/-- The `component_stats` / `label_stats` dictionary: statistics per
non-empty group, in the mapping's iteration (= insertion) order. -/
def build_stats (data : List (String × List Ticket)) : List (String × Stats) :=
  data.filterMap (fun g => (stats_of g.2).map (fun s => (g.1, s)))

/-- Stable insertion into a list already ranked by descending average:
the element goes after every element with an average greater than or equal
to its own. -/
def insertRanked (x : String × Stats) : List (String × Stats) → List (String × Stats)
  | [] => [x]
  | y :: ys =>
    if y.2.average ≤ x.2.average then x :: y :: ys
    else y :: insertRanked x ys

/-- Embedding of `sorted(stats.items(), key=lambda x: x[1]["average"], reverse=True)`
(lines 372, 468, 562, 610): Python's sort is stable, and `reverse=True`
keeps equal keys in their original order, which is exactly what this
insertion sort produces. -/
def sortRanked : List (String × Stats) → List (String × Stats)
  | [] => []
  | x :: xs => insertRanked x (sortRanked xs)

/-- The ranking displayed by `display_component_analysis` /
`format_markdown_component_analysis`: statistics per non-empty group,
sorted by descending average cycle time. -/
def component_ranking (component_data : List (String × List Ticket)) :
    List (String × Stats) :=
  sortRanked (build_stats component_data)

/-- The ranking displayed by `display_label_analysis` /
`format_markdown_label_analysis` (identical computation). -/
def label_ranking (label_data : List (String × List Ticket)) :
    List (String × Stats) :=
  sortRanked (build_stats label_data)

/-- An ASCII single quote, kept out of string literals. -/
def squote : String := String.mk [Char.ofNat 39]

/-- Python `repr` of a plain string (no escaping needed for the simple
label values the repo handles). -/
def pyStrRepr (s : String) : String := squote ++ s ++ squote

/-- Python `repr`/`str` of a list of strings, as an f-string renders
`{current_labels}` (lines 431, 919). -/
def pyListRepr : List String → String
  | [] => "[]"
  | l => "[" ++ String.intercalate ", " (l.map pyStrRepr) ++ "]"

/-- Left-pad a decimal rendering with zeroes. -/
def padNat (width n : Nat) : String :=
  let s := toString n
  String.mk (List.replicate (width - s.length) '0') ++ s

/-- Embedding of `datetime.strftime("%Y-%m-%d %H:%M")`. -/
def strftimeYMDHM (t : PyDateTime) : String :=
  padNat 4 t.year ++ "-" ++ padNat 2 t.month ++ "-" ++ padNat 2 t.day ++ " "
    ++ padNat 2 t.hour ++ ":" ++ padNat 2 t.minute

/-- Embedding of `datetime.strftime("%Y-%m-%d")`. -/
def strftimeYMD (t : PyDateTime) : String :=
  padNat 4 t.year ++ "-" ++ padNat 2 t.month ++ "-" ++ padNat 2 t.day

/-- Embedding of `f"{total/count:.1f}"` for an integer total over a positive count:
round the exact rational `total/count` at one decimal, half to even
(Python float formatting performs the same rounding whenever the double
rounding error does not cross the half-way point; the exact rational is
the faithful model for the integer data handled here).  Computed on
integers so that it evaluates inside the kernel. -/
def format_avg_1f (total : Int) (count : Nat) : String :=
  let n10 : Int := 10 * total
  let q : Int := Int.fdiv n10 count
  let r : Int := n10 - q * count
  let n : Int :=
    if 2 * r < (count : Int) then q
    else if 2 * r > (count : Int) then q + 1
    else if q % 2 = 0 then q else q + 1
  let a := n.natAbs
  (if n < 0 then "-" else "") ++ toString (a / 10) ++ "." ++ toString (a % 10)

/-- Embedding of `min(valid_cycle_times)` where the list is `x :: xs`. -/
def pyMin (x : Int) (xs : List Int) : Int := xs.foldl Min.min x

/-- Embedding of `max(valid_cycle_times)` where the list is `x :: xs`. -/
def pyMax (x : Int) (xs : List Int) : Int := xs.foldl Max.max x

/-- The mojibake glyph run this repository stores for its chart emoji
(and the other glyph constants below likewise), transcribed
codepoint-for-codepoint from the source file. -/
def gChart : String := "üìä"

/-- Mojibake glyph run: clipboard. -/
def gClipboard : String := "üìã"

/-- Mojibake glyph run: trophy. -/
def gTrophy : String := "üèÜ"

/-- Mojibake glyph run: wrench. -/
def gWrench : String := "üîß"

/-- Mojibake glyph run: package. -/
def gPackage : String := "üì¶"

/-- Mojibake glyph run: calendar. -/
def gCalendar : String := "üìÖ"

/-- Mojibake glyph run: check mark button. -/
def gCheck : String := "‚úÖ"

/-- Mojibake glyph run: stopwatch. -/
def gStopwatch : String := "‚è±Ô∏è"

/-- Mojibake glyph run: warning sign. -/
def gWarn : String := "‚ö†Ô∏è"

/-- Mojibake glyph run: label tag. -/
def gLabel : String := "üè∑Ô∏è"

/-- Mojibake glyph run: check mark. -/
def gTick : String := "‚úì"

/-- Embedding of `format_markdown_summary` (lines 400-416). -/
def format_markdown_summary (valid_cycle_times : List Int)
    (total_cycle_time : Int) (issues_count : Nat) : String :=
  match valid_cycle_times with
  | [] =>
    "\n## " ++ gChart ++ " CYCLE TIME SUMMARY\n\n" ++ gWarn
      ++ " No cycle time data available for any issues\n"
  | v :: vs =>
    "\n## " ++ gChart ++ " CYCLE TIME SUMMARY\n\n"
      ++ "- **Issues with cycle time data:** " ++ toString (v :: vs).length
        ++ "/" ++ toString issues_count ++ "\n"
      ++ "- **Average cycle time:** "
        ++ format_avg_1f total_cycle_time (v :: vs).length ++ " days\n"
      ++ "- **Min cycle time:** " ++ toString (pyMin v vs) ++ " days\n"
      ++ "- **Max cycle time:** " ++ toString (pyMax v vs) ++ " days\n"
      ++ "- **Total cycle time:** " ++ toString total_cycle_time ++ " days\n"

/-- The markdown block `format_markdown_issues` appends for one issue
(lines 423-443).  When `cycle_time_days` is present the two dates are
necessarily present as well (`cycle_from_dates` only produces a day count
from two dates), so the strftime accesses cannot fail. -/
def format_markdown_issue_block (issue : Issue) (ips ds : List String) :
    Except String String := do
  let cycle_info ← calculate_cycle_time issue ips ds
  let head :=
    "### " ++ issue.key ++ ": " ++ issue.summary ++ "\n\n"
      ++ "- **Labels:** " ++ pyListRepr issue.labels ++ "\n"
      ++ "- **Status:** " ++ issue.status ++ "\n"
  let tail :=
    match cycle_info with
    | { in_progress_date := some ip, done_date := some dn,
        cycle_time_days := some d } =>
      "- **In Progress:** " ++ strftimeYMDHM ip ++ "\n"
        ++ "- **Done:** " ++ strftimeYMDHM dn ++ "\n"
        ++ "- **Cycle Time:** " ++ toString d ++ " days\n"
    | _ =>
      "- **Cycle time:** Unable to calculate (missing status transitions)\n"
  return head ++ tail ++ "\n"

/-- Body loop of `format_markdown_issues`. -/
def format_markdown_issue_blocks : List Issue → List String → List String →
    Except String String
  | [], _, _ => .ok ""
  | issue :: rest, ips, ds => do
    let b ← format_markdown_issue_block issue ips ds
    let r ← format_markdown_issue_blocks rest ips ds
    return b ++ r

/-- Embedding of `format_markdown_issues` (lines 419-445). -/
def format_markdown_issues (issues : List Issue) (ips ds : List String) :
    Except String String := do
  let body ← format_markdown_issue_blocks issues ips ds
  return "\n## " ++ gClipboard ++ " ISSUES FOUND (" ++ toString issues.length
    ++ " total)\n\n" ++ body

/-- One row of the markdown ranking table (lines 474-475); `i` is the
0-based position. -/
def markdown_rank_row (i : Nat) (g : String × Stats) : String :=
  "| " ++ toString (i + 1) ++ " | " ++ g.1 ++ " | "
    ++ format_avg_1f g.2.total g.2.count ++ " | " ++ toString g.2.count ++ " |\n"

/-- One ticket row of a markdown detail table (lines 490-497). -/
def markdown_ticket_row (t : Ticket) : String :=
  match t.cycle_info.in_progress_date, t.cycle_info.done_date with
  | some ip, some dn =>
    "| " ++ t.key ++ " | " ++ t.summary ++ " | " ++ strftimeYMD ip ++ " | "
      ++ strftimeYMD dn ++ " | " ++ toString t.cycle_time ++ " days |\n"
  | _, _ =>
    "| " ++ t.key ++ " | " ++ t.summary ++ " | - | - | "
      ++ toString t.cycle_time ++ " days |\n"

/-- One markdown detail section for a group (lines 480-499). -/
def markdown_detail_block (emoji : String) (g : String × Stats) : String :=
  "### " ++ emoji ++ " " ++ g.1 ++ " (" ++ toString g.2.count ++ " tickets)\n\n"
    ++ "**Summary:** Avg: " ++ format_avg_1f g.2.total g.2.count ++ "d, Min: "
      ++ toString g.2.min ++ "d, Max: " ++ toString g.2.max ++ "d, Total: "
      ++ toString g.2.total ++ "d\n\n"
    ++ "| Ticket | Summary | In Progress | Done | Cycle Time |\n"
    ++ "|--------|---------|-------------|------|------------|\n"
    ++ String.join (g.2.tickets.map markdown_ticket_row)
    ++ "\n"

/-- Embedding of `format_markdown_component_analysis` (lines 448-501). -/
def format_markdown_component_analysis
    (component_data : List (String × List Ticket)) : String :=
  if component_data = [] then
    "\n## " ++ gWrench ++ " COMPONENT ANALYSIS\n\nNo issues with cycle time data found.\n"
  else
    let sorted_components := component_ranking component_data
    "\n## " ++ gTrophy ++ " COMPONENT RANKING (by average cycle time)\n\n"
      ++ "| Rank | Component | Avg Days | Tickets |\n"
      ++ "|------|-----------|----------|----------|\n"
      ++ String.join (sorted_components.enum.map
          (fun p => markdown_rank_row p.1 p.2))
      ++ "\n## " ++ gWrench ++ " COMPONENT ANALYSIS\n\n"
      ++ String.join (sorted_components.map (markdown_detail_block gPackage))

/-- Embedding of `format_markdown_label_analysis` (lines 590-643); identical to the
component version except for the heading text, the emoji and the ranking
table's second column header. -/
def format_markdown_label_analysis
    (label_data : List (String × List Ticket)) : String :=
  if label_data = [] then
    "\n## " ++ gLabel ++ " LABEL ANALYSIS\n\nNo issues with cycle time data found.\n"
  else
    let sorted_labels := label_ranking label_data
    "\n## " ++ gTrophy ++ " LABEL RANKING (by average cycle time)\n\n"
      ++ "| Rank | Label | Avg Days | Tickets |\n"
      ++ "|------|-------|----------|----------|\n"
      ++ String.join (sorted_labels.enum.map
          (fun p => markdown_rank_row p.1 p.2))
      ++ "\n## " ++ gLabel ++ " LABEL ANALYSIS\n\n"
      ++ String.join (sorted_labels.map (markdown_detail_block gLabel))

/-- Embedding of `format_html_summary` (lines 646-663). -/
def format_html_summary (valid_cycle_times : List Int)
    (total_cycle_time : Int) (issues_count : Nat) : String :=
  match valid_cycle_times with
  | [] =>
    "\n<h2>" ++ gChart ++ " Cycle Time Summary</h2>\n<p><strong>" ++ gWarn
      ++ " No cycle time data available for any issues</strong></p>\n"
  | v :: vs =>
    "\n<h2>" ++ gChart ++ " Cycle Time Summary</h2>\n<ul>\n"
      ++ "<li><strong>Issues with cycle time data:</strong> "
        ++ toString (v :: vs).length ++ "/" ++ toString issues_count ++ "</li>\n"
      ++ "<li><strong>Average cycle time:</strong> "
        ++ format_avg_1f total_cycle_time (v :: vs).length ++ " days</li>\n"
      ++ "<li><strong>Min cycle time:</strong> " ++ toString (pyMin v vs) ++ " days</li>\n"
      ++ "<li><strong>Max cycle time:</strong> " ++ toString (pyMax v vs) ++ " days</li>\n"
      ++ "<li><strong>Total cycle time:</strong> " ++ toString total_cycle_time ++ " days</li>\n"
      ++ "</ul>\n"

/-- The HTML block `format_html_issues` appends for one issue
(lines 670-690). -/
def format_html_issue_block (issue : Issue) (ips ds : List String) :
    Except String String := do
  let cycle_info ← calculate_cycle_time issue ips ds
  let head :=
    "<h3>" ++ issue.key ++ ": " ++ issue.summary ++ "</h3>\n<ul>\n"
      ++ "<li><strong>Labels:</strong> "
        ++ (if issue.labels = [] then "None"
            else String.intercalate ", " issue.labels) ++ "</li>\n"
      ++ "<li><strong>Status:</strong> " ++ issue.status ++ "</li>\n"
  let tail :=
    match cycle_info with
    | { in_progress_date := some ip, done_date := some dn,
        cycle_time_days := some d } =>
      "<li><strong>In Progress:</strong> " ++ strftimeYMDHM ip ++ "</li>\n"
        ++ "<li><strong>Done:</strong> " ++ strftimeYMDHM dn ++ "</li>\n"
        ++ "<li><strong>Cycle Time:</strong> " ++ toString d ++ " days</li>\n"
    | _ =>
      "<li><strong>Cycle time:</strong> Unable to calculate (missing status transitions)</li>\n"
  return head ++ tail ++ "</ul>\n"

/-- Body loop of `format_html_issues`. -/
def format_html_issue_blocks : List Issue → List String → List String →
    Except String String
  | [], _, _ => .ok ""
  | issue :: rest, ips, ds => do
    let b ← format_html_issue_block issue ips ds
    let r ← format_html_issue_blocks rest ips ds
    return b ++ r

/-- Embedding of `format_html_issues` (lines 666-692). -/
def format_html_issues (issues : List Issue) (ips ds : List String) :
    Except String String := do
  let body ← format_html_issue_blocks issues ips ds
  return "\n<h2>" ++ gClipboard ++ " Issues Found (" ++ toString issues.length
    ++ " total)</h2>\n" ++ body

/-- Console lines printed for one ticket of an analysis detail section
(lines 384-394 and identically 574-584). -/
def display_ticket_lines (t : Ticket) : List String :=
  match t.cycle_info.in_progress_date, t.cycle_info.done_date with
  | some ip, some dn =>
    ["     " ++ gClipboard ++ " " ++ t.key ++ ": " ++ t.summary,
     "         " ++ gCalendar ++ " In Progress: " ++ strftimeYMDHM ip,
     "         " ++ gCheck ++ " Done: " ++ strftimeYMDHM dn,
     "         " ++ gStopwatch ++ "  Cycle Time: " ++ toString t.cycle_time ++ " days"]
  | _, _ =>
    ["     " ++ gClipboard ++ " " ++ t.key ++ ": " ++ t.summary ++ " - "
      ++ toString t.cycle_time ++ " days"]

/-- One ranked-summary console line (lines 374-375 / 564-565), `i` the
0-based position. -/
def display_rank_line (i : Nat) (g : String × Stats) : String :=
  "   " ++ toString (i + 1) ++ ". " ++ g.1 ++ ": "
    ++ format_avg_1f g.2.total g.2.count ++ " days avg ("
    ++ toString g.2.count ++ " tickets)"

/-- Console detail section for one group (lines 380-397 / 570-587). -/
def display_detail_lines (emoji : String) (g : String × Stats) : List String :=
  ("\n" ++ emoji ++ " " ++ g.1 ++ " (" ++ toString g.2.count ++ " tickets):")
    :: g.2.tickets.flatMap display_ticket_lines
    ++ ["     " ++ gChart ++ " Summary: Avg: " ++ format_avg_1f g.2.total g.2.count
        ++ "d, Min: " ++ toString g.2.min ++ "d, Max: " ++ toString g.2.max
        ++ "d, Total: " ++ toString g.2.total ++ "d"]

/-- Embedding of `display_component_analysis` (lines 349-397), as the list of lines it
prints. -/
def display_component_analysis
    (component_data : List (String × List Ticket)) : List String :=
  if component_data = [] then
    ["\n" ++ gWrench ++ " COMPONENT ANALYSIS:",
     "   No issues with cycle time data found."]
  else
    let sorted_components := component_ranking component_data
    ("\n" ++ gTrophy ++ " COMPONENT RANKING (by average cycle time):")
      :: sorted_components.enum.map (fun p => display_rank_line p.1 p.2)
      ++ ["\n" ++ gWrench ++ " COMPONENT ANALYSIS:"]
      ++ sorted_components.flatMap (display_detail_lines gPackage)

/-- Embedding of `display_label_analysis` (lines 539-587), as the list of lines it
prints. -/
def display_label_analysis
    (label_data : List (String × List Ticket)) : List String :=
  if label_data = [] then
    ["\n" ++ gLabel ++ " LABEL ANALYSIS:",
     "   No issues with cycle time data found."]
  else
    let sorted_labels := label_ranking label_data
    ("\n" ++ gTrophy ++ " LABEL RANKING (by average cycle time):")
      :: sorted_labels.enum.map (fun p => display_rank_line p.1 p.2)
      ++ ["\n" ++ gLabel ++ " LABEL ANALYSIS:"]
      ++ sorted_labels.flatMap (display_detail_lines gLabel)

/-- Embedding of `main`'s per-issue cycle-time pre-computation (lines 770-778): the
present `cycle_time_days` values in issue order.  `total_cycle_time` is
accumulated alongside and equals the sum of this list. -/
def collect_valid_cycle_times : List Issue → List String → List String →
    Except String (List Int)
  | [], _, _ => .ok []
  | issue :: rest, ips, ds => do
    let cycle_info ← calculate_cycle_time issue ips ds
    let r ← collect_valid_cycle_times rest ips ds
    match cycle_info.cycle_time_days with
    | some d => return d :: r
    | none => return r

/-- The command-line inputs `main`'s output branches read (already parsed,
as `main` itself parses them at lines 712-714). -/
structure MainArgs where
  project_key : String
  delivery_team : String
  labels_list : List String
  start_date : String
  end_date : String
  component_analysis : Bool
  label_analysis : Bool
deriving DecidableEq, Repr

/-- The markdown branch of `main` (lines 781-805), as the list of chunks
it prints, in order.  The component and label analysis chunks are emitted
exactly when the corresponding flag is set. -/
def markdown_document (args : MainArgs) (issues : List Issue)
    (ips ds : List String) : Except String (List String) := do
  let valid ← collect_valid_cycle_times issues ips ds
  let comp ←
    if args.component_analysis then do
      let component_data ← analyze_components issues ips ds
      pure [format_markdown_component_analysis component_data]
    else pure ([] : List String)
  let lab ←
    if args.label_analysis then do
      let label_data ← analyze_labels issues ips ds
      pure [format_markdown_label_analysis label_data]
    else pure ([] : List String)
  let iss ← format_markdown_issues issues ips ds
  return ["# JIRA Cycle Time Analysis",
      "\n## Search Criteria",
      "- **Project:** " ++ args.project_key,
      "- **Delivery Team:** " ++ args.delivery_team,
      "- **Labels:** " ++ String.intercalate ", " args.labels_list,
      "- **Date Range:** " ++ args.start_date ++ " to " ++ args.end_date,
      "\n**Found " ++ toString issues.length ++ " issue(s) matching criteria**",
      format_markdown_summary valid valid.sum issues.length]
    ++ comp ++ lab ++ [iss]

/-- The HTML branch of `main` (lines 807-827), as the list of chunks it
prints.  Note: the branch reads neither `args.component_analysis` nor
`args.label_analysis`; no analysis section exists for this encoding. -/
def html_document (args : MainArgs) (issues : List Issue)
    (ips ds : List String) : Except String (List String) := do
  let valid ← collect_valid_cycle_times issues ips ds
  let iss ← format_html_issues issues ips ds
  return ["<!DOCTYPE html>",
      "<html><head><title>JIRA Cycle Time Analysis</title></head><body>",
      "<h1>JIRA Cycle Time Analysis</h1>",
      "\n<h2>Search Criteria</h2>",
      "<ul>",
      "<li><strong>Project:</strong> " ++ args.project_key ++ "</li>",
      "<li><strong>Delivery Team:</strong> " ++ args.delivery_team ++ "</li>",
      "<li><strong>Labels:</strong> " ++ String.intercalate ", " args.labels_list ++ "</li>",
      "<li><strong>Date Range:</strong> " ++ args.start_date ++ " to " ++ args.end_date ++ "</li>",
      "</ul>",
      "\n<p><strong>Found " ++ toString issues.length ++ " issue(s) matching criteria</strong></p>",
      format_html_summary valid valid.sum issues.length,
      iss,
      "</body></html>"]

/-- One data row of the CSV branch of `main` (lines 841-853), before the
writer's delimiting/quoting: key, summary, status name, labels joined by
a comma-space, the two timestamps (empty when absent) and the day count
(empty when absent). -/
def csv_row (issue : Issue) (ips ds : List String) :
    Except String (List String) := do
  let cycle_info ← calculate_cycle_time issue ips ds
  return [issue.key, issue.summary, issue.status,
    String.intercalate ", " issue.labels,
    (match cycle_info.in_progress_date with
     | some ip => strftimeYMDHM ip
     | none => ""),
    (match cycle_info.done_date with
     | some dn => strftimeYMDHM dn
     | none => ""),
    (match cycle_info.cycle_time_days with
     | some d => toString d
     | none => "")]

/-- All data rows of the CSV branch, in issue order (the header row of
line 835-838 precedes them in the output). -/
def csv_rows : List Issue → List String → List String →
    Except String (List (List String))
  | [], _, _ => .ok []
  | issue :: rest, ips, ds => do
    let row ← csv_row issue ips ds
    let r ← csv_rows rest ips ds
    return row :: r

/-- Lines the confluence branch of `main` prints for one issue
(lines 886-904). -/
def confluence_issue_lines (issue : Issue) (ips ds : List String) :
    Except String (List String) := do
  let cycle_info ← calculate_cycle_time issue ips ds
  let head :=
    ["\nh3. " ++ issue.key ++ ": " ++ issue.summary,
     "* *Labels:* " ++ (if issue.labels = [] then "None"
                        else String.intercalate ", " issue.labels),
     "* *Status:* " ++ issue.status]
  let tail :=
    match cycle_info with
    | { in_progress_date := some ip, done_date := some dn,
        cycle_time_days := some d } =>
      ["* *In Progress:* " ++ strftimeYMDHM ip,
       "* *Done:* " ++ strftimeYMDHM dn,
       "* *Cycle Time:* " ++ toString d ++ " days"]
    | _ =>
      ["* *Cycle time:* Unable to calculate (missing status transitions)"]
  return head ++ tail

/-- Issue loop of the confluence branch. -/
def confluence_issues_lines : List Issue → List String → List String →
    Except String (List String)
  | [], _, _ => .ok []
  | issue :: rest, ips, ds => do
    let b ← confluence_issue_lines issue ips ds
    let r ← confluence_issues_lines rest ips ds
    return b ++ r

/-- The confluence branch of `main` (lines 857-904), as the list of lines
it prints.  Like the HTML branch it reads neither analysis flag. -/
def confluence_document (args : MainArgs) (issues : List Issue)
    (ips ds : List String) : Except String (List String) := do
  let valid ← collect_valid_cycle_times issues ips ds
  let summary :=
    match valid with
    | [] => ["\nh2. Cycle Time Summary",
             "*No cycle time data available for any issues*"]
    | v :: vs =>
      ["\nh2. Cycle Time Summary",
       "* *Issues with cycle time data:* " ++ toString (v :: vs).length
         ++ "/" ++ toString issues.length,
       "* *Average cycle time:* " ++ format_avg_1f valid.sum (v :: vs).length
         ++ " days",
       "* *Min cycle time:* " ++ toString (pyMin v vs) ++ " days",
       "* *Max cycle time:* " ++ toString (pyMax v vs) ++ " days",
       "* *Total cycle time:* " ++ toString valid.sum ++ " days"]
  let iss ← confluence_issues_lines issues ips ds
  return ["h1. JIRA Cycle Time Analysis",
      "\nh2. Search Criteria",
      "* *Project:* " ++ args.project_key,
      "* *Delivery Team:* " ++ args.delivery_team,
      "* *Labels:* " ++ String.intercalate ", " args.labels_list,
      "* *Date Range:* " ++ args.start_date ++ " to " ++ args.end_date,
      "\n*Found " ++ toString issues.length ++ " issue(s) matching criteria*"]
    ++ summary
    ++ ["\nh2. Issues Found (" ++ toString issues.length ++ " total)"]
    ++ iss

/-- Lines the console branch of `main` prints for one issue
(lines 910-928). -/
def console_issue_lines (issue : Issue) (ips ds : List String) :
    Except String (List String) := do
  let cycle_info ← calculate_cycle_time issue ips ds
  let head :=
    ["\n  " ++ gClipboard ++ " " ++ issue.key ++ ": " ++ issue.summary,
     "      Labels: " ++ pyListRepr issue.labels,
     "      Status: " ++ issue.status]
  let tail :=
    match cycle_info with
    | { in_progress_date := some ip, done_date := some dn,
        cycle_time_days := some d } =>
      ["      " ++ gCalendar ++ " In Progress: " ++ strftimeYMDHM ip,
       "      " ++ gCheck ++ " Done: " ++ strftimeYMDHM dn,
       "      " ++ gStopwatch ++ "  Cycle Time: " ++ toString d ++ " days"]
    | _ =>
      ["      " ++ gWarn ++ "  Cycle time: Unable to calculate (missing status transitions)"]
  return head ++ tail

/-- Issue loop of the console branch. -/
def console_issues_lines : List Issue → List String → List String →
    Except String (List String)
  | [], _, _ => .ok []
  | issue :: rest, ips, ds => do
    let b ← console_issue_lines issue ips ds
    let r ← console_issues_lines rest ips ds
    return b ++ r

/-- The console (default) branch of `main` (lines 906-953), as the list
of lines it prints: issue list, summary, then the analysis sections when
the corresponding flags are set. -/
def console_document (args : MainArgs) (issues : List Issue)
    (ips ds : List String) : Except String (List String) := do
  let valid ← collect_valid_cycle_times issues ips ds
  let iss ← console_issues_lines issues ips ds
  let summary :=
    match valid with
    | [] => ["\n" ++ gWarn ++ "  No cycle time data available for any issues"]
    | v :: vs =>
      ["\n" ++ gChart ++ " CYCLE TIME SUMMARY:",
       "   Issues with cycle time data: " ++ toString (v :: vs).length
         ++ "/" ++ toString issues.length,
       "   Average cycle time: " ++ format_avg_1f valid.sum (v :: vs).length
         ++ " days",
       "   Min cycle time: " ++ toString (pyMin v vs) ++ " days",
       "   Max cycle time: " ++ toString (pyMax v vs) ++ " days",
       "   Total cycle time: " ++ toString valid.sum ++ " days"]
  let comp ←
    if args.component_analysis then do
      let component_data ← analyze_components issues ips ds
      pure (display_component_analysis component_data)
    else pure ([] : List String)
  let lab ←
    if args.label_analysis then do
      let label_data ← analyze_labels issues ips ds
      pure (display_label_analysis label_data)
    else pure ([] : List String)
  return (gTick ++ " Found " ++ toString issues.length
      ++ " issue(s) matching criteria:")
    :: iss ++ summary ++ comp ++ lab

/-- The numeric cycle-time value the markdown issue formatter serializes
per issue: the `cycle_time_days` of the `calculate_cycle_time` call at
line 428. -/
def markdown_cycle_values : List Issue → List String → List String →
    Except String (List (Option Int))
  | [], _, _ => .ok []
  | issue :: rest, ips, ds => do
    let cycle_info ← calculate_cycle_time issue ips ds
    let r ← markdown_cycle_values rest ips ds
    return cycle_info.cycle_time_days :: r

/-- The numeric cycle-time value the HTML issue formatter serializes per
issue: the `calculate_cycle_time` call at line 675. -/
def html_cycle_values : List Issue → List String → List String →
    Except String (List (Option Int))
  | [], _, _ => .ok []
  | issue :: rest, ips, ds => do
    let cycle_info ← calculate_cycle_time issue ips ds
    let r ← html_cycle_values rest ips ds
    return cycle_info.cycle_time_days :: r

/-- The numeric cycle-time value the CSV branch writes per row: the
`calculate_cycle_time` call at line 847. -/
def csv_cycle_values : List Issue → List String → List String →
    Except String (List (Option Int))
  | [], _, _ => .ok []
  | issue :: rest, ips, ds => do
    let cycle_info ← calculate_cycle_time issue ips ds
    let r ← csv_cycle_values rest ips ds
    return cycle_info.cycle_time_days :: r

/-- The numeric cycle-time value the confluence branch prints per issue:
the `calculate_cycle_time` call at line 891. -/
def confluence_cycle_values : List Issue → List String → List String →
    Except String (List (Option Int))
  | [], _, _ => .ok []
  | issue :: rest, ips, ds => do
    let cycle_info ← calculate_cycle_time issue ips ds
    let r ← confluence_cycle_values rest ips ds
    return cycle_info.cycle_time_days :: r

/-- The numeric cycle-time value the console branch prints per issue: the
`calculate_cycle_time` call at line 916. -/
def console_cycle_values : List Issue → List String → List String →
    Except String (List (Option Int))
  | [], _, _ => .ok []
  | issue :: rest, ips, ds => do
    let cycle_info ← calculate_cycle_time issue ips ds
    let r ← console_cycle_values rest ips ds
    return cycle_info.cycle_time_days :: r

/-- The Calculator results `main` precomputes per issue before any
rendering (lines 774-778). -/
def calculator_results : List Issue → List String → List String →
    Except String (List (Option Int))
  | [], _, _ => .ok []
  | issue :: rest, ips, ds => do
    let cycle_info ← calculate_cycle_time issue ips ds
    let r ← calculator_results rest ips ds
    return cycle_info.cycle_time_days :: r

/-- Fixture: the spec's worked example X-1 (two transitions, default
status sets, cycle time 8 days). -/
def x1issue : Issue :=
  { key := "X-1", summary := "ex", status := "Done", labels := [],
    components := [],
    histories :=
      [{ created := some "2024-01-02T09:00:00.000+0000",
         items := [{ field := some "status", toString := some "In Progress" }] },
       { created := some "2024-01-10T17:00:00.000+0000",
         items := [{ field := some "status", toString := some "Done" }] }] }

/-- Fixture: a single transition whose status is configured in both
status sets. -/
def c1issue : Issue :=
  { key := "C1-1", summary := "dual", status := "Done", labels := [],
    components := [],
    histories :=
      [{ created := some "2024-03-04T10:00:00.000+0000",
         items := [{ field := some "status", toString := some "Done" }] }] }

/-- Fixture: done recorded twelve hours before in-progress on the same
day. -/
def c2issue : Issue :=
  { key := "C2-1", summary := "halfday", status := "Done", labels := [],
    components := [],
    histories :=
      [{ created := some "2024-01-05T12:00:00.000+0000",
         items := [{ field := some "status", toString := some "In Progress" }] },
       { created := some "2024-01-05T00:00:00.000+0000",
         items := [{ field := some "status", toString := some "Done" }] }] }

/-- Fixture: a done-matching transition followed by a transition matching
both configured sets. -/
def c4issue : Issue :=
  { key := "C4-1", summary := "overlap", status := "Active", labels := [],
    components := [],
    histories :=
      [{ created := some "2024-02-01T00:00:00.000+0000",
         items := [{ field := some "status", toString := some "Closed" }] },
       { created := some "2024-02-05T00:00:00.000+0000",
         items := [{ field := some "status", toString := some "Active" }] }] }

/-- Fixture: a history entry with no `created` key at all. -/
def c5issue : Issue :=
  { key := "C5-1", summary := "no created", status := "Done", labels := [],
    components := [],
    histories :=
      [{ created := none,
         items := [{ field := some "status", toString := some "Done" }] }] }

/-- Fixture: a status transition with no `toString` key. -/
def c5issue_no_to : Issue :=
  { key := "C5-2", summary := "no to", status := "Done", labels := [],
    components := [],
    histories :=
      [{ created := some "2024-01-02T09:00:00.000+0000",
         items := [{ field := some "status", toString := none }] }] }

/-- Fixture: an issue with no transition data at all. -/
def c6issue : Issue :=
  { key := "C6-1", summary := "no data", status := "Open", labels := [],
    components := [], histories := [] }

/-- Fixture: arguments with both analysis flags set. -/
def c6argsOn : MainArgs :=
  { project_key := "PROJ", delivery_team := "Team", labels_list := ["bug"],
    start_date := "2024-01-01", end_date := "2024-01-31",
    component_analysis := true, label_analysis := true }

/-- Fixture: the same arguments with both analysis flags cleared. -/
def c6argsOff : MainArgs :=
  { project_key := "PROJ", delivery_team := "Team", labels_list := ["bug"],
    start_date := "2024-01-01", end_date := "2024-01-31",
    component_analysis := false, label_analysis := false }

/-- Fixture: an issue with a present cycle time and one component. -/
def c7issueA : Issue :=
  { key := "C7-A", summary := "with cycle", status := "Done", labels := [],
    components := ["ui"],
    histories :=
      [{ created := some "2024-01-02T09:00:00.000+0000",
         items := [{ field := some "status", toString := some "In Progress" }] },
       { created := some "2024-01-10T17:00:00.000+0000",
         items := [{ field := some "status", toString := some "Done" }] }] }

/-- Fixture: an issue with no transitions (absent cycle time) and one
component. -/
def c7issueB : Issue :=
  { key := "C7-B", summary := "without cycle", status := "Open", labels := [],
    components := ["api"], histories := [] }

/-- Fixture: the cycle-time result shared by `c7issueA`, `c8issue` and
`c10issue` (identical transition history) under the default status
sets. -/
def info8 : CycleInfo :=
  { in_progress_date := some ⟨2024, 1, 2, 9, 0, 0⟩,
    done_date := some ⟨2024, 1, 10, 17, 0, 0⟩,
    cycle_time_days := some 8 }

/-- Fixture: an issue with two labels and a present cycle time. -/
def c8issue : Issue :=
  { key := "C8-1", summary := "fanout", status := "Done",
    labels := ["bug", "urgent"], components := [],
    histories :=
      [{ created := some "2024-01-02T09:00:00.000+0000",
         items := [{ field := some "status", toString := some "In Progress" }] },
       { created := some "2024-01-10T17:00:00.000+0000",
         items := [{ field := some "status", toString := some "Done" }] }] }

/-- Fixture: an issue carrying the same label twice, with a present cycle
time. -/
def c10issue : Issue :=
  { key := "C10-1", summary := "dup label", status := "Done",
    labels := ["dup", "dup"], components := [],
    histories :=
      [{ created := some "2024-01-02T09:00:00.000+0000",
         items := [{ field := some "status", toString := some "In Progress" }] },
       { created := some "2024-01-10T17:00:00.000+0000",
         items := [{ field := some "status", toString := some "Done" }] }] }

/-- Sanity: the worked example of the spec, transitions
`2024-01-02T09:00:00 → In Progress` and `2024-01-10T17:00:00 → Done`
under the default status lists give 8 days. -/
theorem example_x1_cycle_time :
    calculate_cycle_time x1issue
      default_in_progress_statuses default_done_statuses
    = .ok { in_progress_date := some ⟨2024, 1, 2, 9, 0, 0⟩,
            done_date := some ⟨2024, 1, 10, 17, 0, 0⟩,
            cycle_time_days := some 8 } := by
  decide

/-- The first projection of a single event step: an event whose target
status is in the in-progress list overwrites `in_progress_date`; any other
event leaves it unchanged. -/
theorem eventStep_fst (ipl dl : List String) (acc : DatePair)
    (e : PyDateTime × String) :
    (eventStep ipl dl acc e).1
      = if ipl.contains e.2 then some e.1 else acc.1 := by
  unfold eventStep
  split_ifs <;> rfl

/-- The second projection of a single event step: `done_date` is
overwritten exactly by an event whose target status is in the done list
but not in the in-progress list (the `elif`). -/
theorem eventStep_snd (ipl dl : List String) (acc : DatePair)
    (e : PyDateTime × String) :
    (eventStep ipl dl acc e).2
      = if (!ipl.contains e.2 && dl.contains e.2) = true then some e.1
        else acc.2 := by
  unfold eventStep
  cases h1 : ipl.contains e.2 <;> cases h2 : dl.contains e.2 <;> simp

/-- The item loop of `calculate_cycle_time` is the fold of `eventStep`
over the status events of the history. -/
theorem scan_items_eq_foldl (ipl dl : List String) (created : PyDateTime)
    (items : List HistoryItem) (acc : DatePair) :
    scan_items ipl dl created items acc
      = (items.filterMap (fun item =>
          if item.field = some "status" then
            some (created, lowerStrip (item.toString.getD ""))
          else none)).foldl (eventStep ipl dl) acc := by
  induction items generalizing acc with
  | nil => rfl
  | cons item rest ih =>
    by_cases hf : item.field = some "status"
    · simp only [scan_items, List.filterMap_cons, hf, if_true, List.foldl_cons]
      rw [ih]
      rfl
    · simp only [scan_items, List.filterMap_cons, hf, if_false]
      rw [ih]

/-- The history loop of `calculate_cycle_time` parses every history and
folds `eventStep` over the flattened status events. -/
theorem scan_histories_eq_foldl (ipl dl : List String) (hs : List History)
    (acc : DatePair) :
    scan_histories ipl dl hs acc
      = (parseHistories hs).map
          (fun phs => (statusEvents phs).foldl (eventStep ipl dl) acc) := by
  induction hs generalizing acc with
  | nil => rfl
  | cons h rest ih =>
    unfold scan_histories parseHistories
    cases hc : h.created with
    | none => rfl
    | some s =>
      cases hp : strptime19 s with
      | none => simp only [hp, Except.map]
      | some created =>
        simp only [hp]
        rw [ih]
        cases hr : parseHistories rest with
        | error e => rfl
        | ok r =>
          simp only [Except.map, statusEvents, bind, Except.bind, pure,
            Except.pure, List.flatMap_cons, List.foldl_append,
            scan_items_eq_foldl]

/-- A fold of conditional overwrites keeps the payload of the last
list element satisfying the condition. -/
theorem foldl_setIf_last (p : String → Bool)
    (evs : List (PyDateTime × String)) (cur : Option PyDateTime) :
    evs.foldl (fun c e => if p e.2 then some e.1 else c) cur
      = match evs.reverse.find? (fun e => p e.2) with
        | some e => some e.1
        | none => cur := by
  induction evs generalizing cur with
  | nil => rfl
  | cons e rest ih =>
    rw [List.foldl_cons, ih, List.reverse_cons, List.find?_append]
    cases hfind : rest.reverse.find? (fun x => p x.2) with
    | some x => rfl
    | none =>
      cases hp : p e.2 <;> simp [List.find?, hp, Option.orElse]

/-- Folding `eventStep` performs the two independent conditional-overwrite
folds in the two components: `in_progress_date` is overwritten by events
in the in-progress list, `done_date` by events in the done list that are
not in the in-progress list. -/
theorem foldl_eventStep_proj (ipl dl : List String)
    (evs : List (PyDateTime × String)) (acc : DatePair) :
    evs.foldl (eventStep ipl dl) acc
      = (evs.foldl (fun c e => if ipl.contains e.2 then some e.1 else c) acc.1,
         evs.foldl
           (fun c e => if !ipl.contains e.2 && dl.contains e.2 then some e.1 else c)
           acc.2) := by
  induction evs generalizing acc with
  | nil => rfl
  | cons e rest ih =>
    rw [List.foldl_cons, ih, List.foldl_cons, List.foldl_cons]
    rw [eventStep_fst ipl dl acc e, eventStep_snd ipl dl acc e]

/-- A conditional-overwrite fold started from `none` computes exactly the
last matching event's timestamp. -/
theorem foldl_setIf_last_none (p : String → Bool)
    (evs : List (PyDateTime × String)) :
    evs.foldl (fun c e => if p e.2 then some e.1 else c) none
      = lastMatchTime evs p := by
  rw [foldl_setIf_last]
  unfold lastMatchTime
  cases evs.reverse.find? (fun e => p e.2) <;> rfl

/-- Lemma: `groupTickets` on a cons cell. -/
theorem groupTickets_cons (k : String) (ts : List Ticket)
    (rest : List (String × List Ticket)) (m : String) :
    groupTickets ((k, ts) :: rest) m
      = if k = m then ts else groupTickets rest m := by
  by_cases h : k = m
  · simp [groupTickets, List.find?, h]
  · simp [groupTickets, List.find?, beq_eq_false_iff_ne.mpr h, h]

/-- Lemma: `addTicket` appends the ticket to the named group and leaves every
other group unchanged. -/
theorem groupTickets_addTicket (data : List (String × List Ticket))
    (name m : String) (t : Ticket) :
    groupTickets (addTicket data name t) m
      = if name = m then groupTickets data m ++ [t]
        else groupTickets data m := by
  induction data with
  | nil =>
    by_cases h : name = m
    · simp [addTicket, groupTickets_cons, groupTickets, h]
    · simp [addTicket, groupTickets_cons, groupTickets, h]
  | cons g rest ih =>
    obtain ⟨k, ts⟩ := g
    simp only [addTicket]
    by_cases hk : k = name
    · subst hk
      rw [if_pos rfl]
      by_cases hm : k = m
      · simp [groupTickets_cons, hm]
      · simp [groupTickets_cons, hm]
    · rw [if_neg hk]
      by_cases hm : k = m
      · subst hm
        have hnk : ¬(name = k) := fun h => hk h.symm
        simp [groupTickets_cons, hnk]
      · simp [groupTickets_cons, hm, ih]

/-- Folding `addTicket` over a list of names appends one copy of the
ticket per occurrence of the group's name. -/
theorem groupTickets_foldl_addTicket (names : List String)
    (acc : List (String × List Ticket)) (t : Ticket) (m : String) :
    groupTickets (names.foldl (fun d n => addTicket d n t) acc) m
      = groupTickets acc m ++ List.replicate (names.count m) t := by
  induction names generalizing acc with
  | nil => simp
  | cons n ns ih =>
    rw [List.foldl_cons, ih, groupTickets_addTicket]
    by_cases h : n = m
    · subst h
      rw [if_pos rfl, List.count_cons_self, List.append_assoc]
      congr 1
    · rw [if_neg h, List.count_cons_of_ne (fun hc => h hc.symm)]

/-- Every group in an `addTicket` result is non-empty provided every
group already was. -/
theorem addTicket_nonempty (data : List (String × List Ticket))
    (name : String) (t : Ticket)
    (h : ∀ g ∈ data, g.2 ≠ []) :
    ∀ g ∈ addTicket data name t, g.2 ≠ [] := by
  induction data with
  | nil =>
    intro g hg
    simp only [addTicket, List.mem_singleton] at hg
    subst hg
    simp
  | cons g0 rest ih =>
    obtain ⟨k, ts⟩ := g0
    intro g hg
    simp only [addTicket] at hg
    by_cases hk : k = name
    · rw [if_pos hk] at hg
      rcases List.mem_cons.mp hg with h1 | h2
      · subst h1; simp
      · exact h g (List.mem_cons_of_mem _ h2)
    · rw [if_neg hk] at hg
      rcases List.mem_cons.mp hg with h1 | h2
      · subst h1; exact h (k, ts) (List.mem_cons_self _ _)
      · exact ih (fun g' hg' => h g' (List.mem_cons_of_mem _ hg')) g h2

/-- Every ticket in an `addTicket` result was already in some group, or
is the ticket just added. -/
theorem mem_addTicket (data : List (String × List Ticket))
    (name : String) (t : Ticket) :
    ∀ g ∈ addTicket data name t, ∀ y ∈ g.2,
      (∃ g' ∈ data, y ∈ g'.2) ∨ y = t := by
  induction data with
  | nil =>
    intro g hg y hy
    simp only [addTicket, List.mem_singleton] at hg
    subst hg
    simp only [List.mem_singleton] at hy
    exact Or.inr hy
  | cons g0 rest ih =>
    obtain ⟨k, ts⟩ := g0
    intro g hg y hy
    simp only [addTicket] at hg
    by_cases hk : k = name
    · rw [if_pos hk] at hg
      rcases List.mem_cons.mp hg with h1 | h2
      · subst h1
        rcases List.mem_append.mp hy with h3 | h4
        · exact Or.inl ⟨(k, ts), List.mem_cons_self _ _, h3⟩
        · simp only [List.mem_singleton] at h4
          exact Or.inr h4
      · exact Or.inl ⟨g, List.mem_cons_of_mem _ h2, hy⟩
    · rw [if_neg hk] at hg
      rcases List.mem_cons.mp hg with h1 | h2
      · subst h1
        exact Or.inl ⟨(k, ts), List.mem_cons_self _ _, hy⟩
      · rcases ih g h2 y hy with ⟨g', hg', hy'⟩ | h3
        · exact Or.inl ⟨g', List.mem_cons_of_mem _ hg', hy'⟩
        · exact Or.inr h3

/-- Lemma: `mem_addTicket` lifted to the fold over a name list. -/
theorem mem_foldl_addTicket (names : List String)
    (acc : List (String × List Ticket)) (t : Ticket) :
    ∀ g ∈ names.foldl (fun d n => addTicket d n t) acc, ∀ y ∈ g.2,
      (∃ g' ∈ acc, y ∈ g'.2) ∨ y = t := by
  induction names generalizing acc with
  | nil => exact fun g hg y hy => Or.inl ⟨g, hg, hy⟩
  | cons n ns ih =>
    intro g hg y hy
    rcases ih (addTicket acc n t) g hg y hy with ⟨g', hg', hy'⟩ | h1
    · exact mem_addTicket acc n t g' hg' y hy'
    · exact Or.inr h1

/-- Lemma: `addTicket_nonempty` lifted to the fold over a name list. -/
theorem foldl_addTicket_nonempty (names : List String)
    (acc : List (String × List Ticket)) (t : Ticket)
    (h : ∀ g ∈ acc, g.2 ≠ []) :
    ∀ g ∈ names.foldl (fun d n => addTicket d n t) acc, g.2 ≠ [] := by
  induction names generalizing acc with
  | nil => exact h
  | cons n ns ih => exact ih (addTicket acc n t) (addTicket_nonempty acc n t h)

/-- Every ticket in an `analyze_components_go` result was already in the
accumulator or comes from an issue of the list whose computed cycle time
is present and matches the ticket. -/
theorem analyze_components_go_sound (ips ds : List String)
    (issues : List Issue) :
    ∀ acc data, analyze_components_go ips ds acc issues = .ok data →
    ∀ g ∈ data, ∀ y ∈ g.2,
      (∃ g' ∈ acc, y ∈ g'.2) ∨
      (∃ i ∈ issues, ∃ info, calculate_cycle_time i ips ds = .ok info ∧
        info.cycle_time_days = some y.cycle_time ∧
        y = mkTicket i y.cycle_time info) := by
  induction issues with
  | nil =>
    intro acc data heq g hg y hy
    simp only [analyze_components_go] at heq
    cases heq
    exact Or.inl ⟨g, hg, hy⟩
  | cons i rest ih =>
    intro acc data heq g hg y hy
    simp only [analyze_components_go] at heq
    cases hcalc : calculate_cycle_time i ips ds with
    | error e =>
      rw [hcalc] at heq
      simp only [bind, Except.bind] at heq
      exact Except.noConfusion heq
    | ok info =>
      rw [hcalc] at heq
      simp only [bind, Except.bind] at heq
      cases hdays : info.cycle_time_days with
      | none =>
        rw [hdays] at heq
        rcases ih acc data heq g hg y hy with hacc | hrest
        · exact Or.inl hacc
        · obtain ⟨i', hi', h3⟩ := hrest
          exact Or.inr ⟨i', List.mem_cons_of_mem _ hi', h3⟩
      | some ct =>
        rw [hdays] at heq
        rcases ih _ data heq g hg y hy with hacc | hrest
        · obtain ⟨g', hg', hy'⟩ := hacc
          rcases mem_foldl_addTicket (componentNames i) acc
              (mkTicket i ct info) g' hg' y hy' with ⟨g₀, hg₀, hy₀⟩ | hyt
          · exact Or.inl ⟨g₀, hg₀, hy₀⟩
          · subst hyt
            exact Or.inr ⟨i, List.mem_cons_self _ _, info, hcalc, hdays, rfl⟩
        · obtain ⟨i', hi', h3⟩ := hrest
          exact Or.inr ⟨i', List.mem_cons_of_mem _ hi', h3⟩

/-- Every group of an `analyze_components_go` result is non-empty when
every accumulator group is. -/
theorem analyze_components_go_nonempty (ips ds : List String)
    (issues : List Issue) :
    ∀ acc data, (∀ g ∈ acc, g.2 ≠ []) →
    analyze_components_go ips ds acc issues = .ok data →
    ∀ g ∈ data, g.2 ≠ [] := by
  induction issues with
  | nil =>
    intro acc data hacc heq
    simp only [analyze_components_go] at heq
    cases heq
    exact hacc
  | cons i rest ih =>
    intro acc data hacc heq
    simp only [analyze_components_go] at heq
    cases hcalc : calculate_cycle_time i ips ds with
    | error e =>
      rw [hcalc] at heq
      simp only [bind, Except.bind] at heq
      exact Except.noConfusion heq
    | ok info =>
      rw [hcalc] at heq
      simp only [bind, Except.bind] at heq
      cases hdays : info.cycle_time_days with
      | none =>
        rw [hdays] at heq
        exact ih acc data hacc heq
      | some ct =>
        rw [hdays] at heq
        exact ih _ data
          (foldl_addTicket_nonempty (componentNames i) acc
            (mkTicket i ct info) hacc) heq

/-- Processing further issues only appends to existing groups. -/
theorem analyze_components_go_mono (ips ds : List String)
    (issues : List Issue) :
    ∀ acc data, analyze_components_go ips ds acc issues = .ok data →
    ∀ m, ∃ suf, groupTickets data m = groupTickets acc m ++ suf := by
  induction issues with
  | nil =>
    intro acc data heq m
    simp only [analyze_components_go] at heq
    cases heq
    exact ⟨[], (List.append_nil _).symm⟩
  | cons i rest ih =>
    intro acc data heq m
    simp only [analyze_components_go] at heq
    cases hcalc : calculate_cycle_time i ips ds with
    | error e =>
      rw [hcalc] at heq
      simp only [bind, Except.bind] at heq
      exact Except.noConfusion heq
    | ok info =>
      rw [hcalc] at heq
      simp only [bind, Except.bind] at heq
      cases hdays : info.cycle_time_days with
      | none =>
        rw [hdays] at heq
        exact ih acc data heq m
      | some ct =>
        rw [hdays] at heq
        obtain ⟨suf, hsuf⟩ := ih _ data heq m
        refine ⟨List.replicate ((componentNames i).count m)
          (mkTicket i ct info) ++ suf, ?_⟩
        rw [hsuf, groupTickets_foldl_addTicket, List.append_assoc]

/-- Fan-out of `analyze_components_go`: an issue with a present cycle time
gets its ticket into every group named by its component names. -/
theorem analyze_components_go_fanout (ips ds : List String)
    (issues : List Issue) (i : Issue) (info : CycleInfo) (ct : Int) :
    ∀ acc data, analyze_components_go ips ds acc issues = .ok data →
    i ∈ issues → calculate_cycle_time i ips ds = .ok info →
    info.cycle_time_days = some ct →
    ∀ name ∈ componentNames i, mkTicket i ct info ∈ groupTickets data name := by
  induction issues with
  | nil =>
    intro acc data _ hi
    exact absurd hi (List.not_mem_nil i)
  | cons j rest ih =>
    intro acc data heq hi hcalc hdays name hname
    simp only [analyze_components_go] at heq
    cases hcalcj : calculate_cycle_time j ips ds with
    | error e =>
      rw [hcalcj] at heq
      simp only [bind, Except.bind] at heq
      exact Except.noConfusion heq
    | ok infoj =>
      rw [hcalcj] at heq
      simp only [bind, Except.bind] at heq
      rcases List.mem_cons.mp hi with hij | hirest
      · subst hij
        have hinfo : infoj = info := by
          rw [hcalc] at hcalcj
          cases hcalcj
          rfl
        subst hinfo
        rw [hdays] at heq
        obtain ⟨suf, hsuf⟩ :=
          analyze_components_go_mono ips ds rest _ data heq name
        rw [hsuf, groupTickets_foldl_addTicket]
        have hcnt : (componentNames i).count name ≠ 0 :=
          fun h0 => (List.count_pos_iff.mpr hname).ne' h0
        refine List.mem_append_left _ (List.mem_append_right _ ?_)
        exact List.mem_replicate.mpr ⟨hcnt, rfl⟩
      · cases hdaysj : infoj.cycle_time_days with
        | none =>
          rw [hdaysj] at heq
          exact ih acc data heq hirest hcalc hdays name hname
        | some ctj =>
          rw [hdaysj] at heq
          exact ih _ data heq hirest hcalc hdays name hname

/-- Label counterpart of `analyze_components_go_sound`. -/
theorem analyze_labels_go_sound (ips ds : List String)
    (issues : List Issue) :
    ∀ acc data, analyze_labels_go ips ds acc issues = .ok data →
    ∀ g ∈ data, ∀ y ∈ g.2,
      (∃ g' ∈ acc, y ∈ g'.2) ∨
      (∃ i ∈ issues, ∃ info, calculate_cycle_time i ips ds = .ok info ∧
        info.cycle_time_days = some y.cycle_time ∧
        y = mkTicket i y.cycle_time info) := by
  induction issues with
  | nil =>
    intro acc data heq g hg y hy
    simp only [analyze_labels_go] at heq
    cases heq
    exact Or.inl ⟨g, hg, hy⟩
  | cons i rest ih =>
    intro acc data heq g hg y hy
    simp only [analyze_labels_go] at heq
    cases hcalc : calculate_cycle_time i ips ds with
    | error e =>
      rw [hcalc] at heq
      simp only [bind, Except.bind] at heq
      exact Except.noConfusion heq
    | ok info =>
      rw [hcalc] at heq
      simp only [bind, Except.bind] at heq
      cases hdays : info.cycle_time_days with
      | none =>
        rw [hdays] at heq
        rcases ih acc data heq g hg y hy with hacc | hrest2
        · exact Or.inl hacc
        · obtain ⟨i', hi', h3⟩ := hrest2
          exact Or.inr ⟨i', List.mem_cons_of_mem _ hi', h3⟩
      | some ct =>
        rw [hdays] at heq
        rcases ih _ data heq g hg y hy with hacc | hrest2
        · obtain ⟨g', hg', hy'⟩ := hacc
          rcases mem_foldl_addTicket (labelNames i) acc
              (mkTicket i ct info) g' hg' y hy' with ⟨g₀, hg₀, hy₀⟩ | hyt
          · exact Or.inl ⟨g₀, hg₀, hy₀⟩
          · subst hyt
            exact Or.inr ⟨i, List.mem_cons_self _ _, info, hcalc, hdays, rfl⟩
        · obtain ⟨i', hi', h3⟩ := hrest2
          exact Or.inr ⟨i', List.mem_cons_of_mem _ hi', h3⟩

/-- Label counterpart of `analyze_components_go_nonempty`. -/
theorem analyze_labels_go_nonempty (ips ds : List String)
    (issues : List Issue) :
    ∀ acc data, (∀ g ∈ acc, g.2 ≠ []) →
    analyze_labels_go ips ds acc issues = .ok data →
    ∀ g ∈ data, g.2 ≠ [] := by
  induction issues with
  | nil =>
    intro acc data hacc heq
    simp only [analyze_labels_go] at heq
    cases heq
    exact hacc
  | cons i rest ih =>
    intro acc data hacc heq
    simp only [analyze_labels_go] at heq
    cases hcalc : calculate_cycle_time i ips ds with
    | error e =>
      rw [hcalc] at heq
      simp only [bind, Except.bind] at heq
      exact Except.noConfusion heq
    | ok info =>
      rw [hcalc] at heq
      simp only [bind, Except.bind] at heq
      cases hdays : info.cycle_time_days with
      | none =>
        rw [hdays] at heq
        exact ih acc data hacc heq
      | some ct =>
        rw [hdays] at heq
        exact ih _ data
          (foldl_addTicket_nonempty (labelNames i) acc
            (mkTicket i ct info) hacc) heq

/-- Label counterpart of `analyze_components_go_mono`. -/
theorem analyze_labels_go_mono (ips ds : List String)
    (issues : List Issue) :
    ∀ acc data, analyze_labels_go ips ds acc issues = .ok data →
    ∀ m, ∃ suf, groupTickets data m = groupTickets acc m ++ suf := by
  induction issues with
  | nil =>
    intro acc data heq m
    simp only [analyze_labels_go] at heq
    cases heq
    exact ⟨[], (List.append_nil _).symm⟩
  | cons i rest ih =>
    intro acc data heq m
    simp only [analyze_labels_go] at heq
    cases hcalc : calculate_cycle_time i ips ds with
    | error e =>
      rw [hcalc] at heq
      simp only [bind, Except.bind] at heq
      exact Except.noConfusion heq
    | ok info =>
      rw [hcalc] at heq
      simp only [bind, Except.bind] at heq
      cases hdays : info.cycle_time_days with
      | none =>
        rw [hdays] at heq
        exact ih acc data heq m
      | some ct =>
        rw [hdays] at heq
        obtain ⟨suf, hsuf⟩ := ih _ data heq m
        refine ⟨List.replicate ((labelNames i).count m)
          (mkTicket i ct info) ++ suf, ?_⟩
        rw [hsuf, groupTickets_foldl_addTicket, List.append_assoc]

/-- Label counterpart of `analyze_components_go_fanout`. -/
theorem analyze_labels_go_fanout (ips ds : List String)
    (issues : List Issue) (i : Issue) (info : CycleInfo) (ct : Int) :
    ∀ acc data, analyze_labels_go ips ds acc issues = .ok data →
    i ∈ issues → calculate_cycle_time i ips ds = .ok info →
    info.cycle_time_days = some ct →
    ∀ name ∈ labelNames i, mkTicket i ct info ∈ groupTickets data name := by
  induction issues with
  | nil =>
    intro acc data _ hi
    exact absurd hi (List.not_mem_nil i)
  | cons j rest ih =>
    intro acc data heq hi hcalc hdays name hname
    simp only [analyze_labels_go] at heq
    cases hcalcj : calculate_cycle_time j ips ds with
    | error e =>
      rw [hcalcj] at heq
      simp only [bind, Except.bind] at heq
      exact Except.noConfusion heq
    | ok infoj =>
      rw [hcalcj] at heq
      simp only [bind, Except.bind] at heq
      rcases List.mem_cons.mp hi with hij | hirest
      · subst hij
        have hinfo : infoj = info := by
          rw [hcalc] at hcalcj
          cases hcalcj
          rfl
        subst hinfo
        rw [hdays] at heq
        obtain ⟨suf, hsuf⟩ :=
          analyze_labels_go_mono ips ds rest _ data heq name
        rw [hsuf, groupTickets_foldl_addTicket]
        have hcnt : (labelNames i).count name ≠ 0 :=
          fun h0 => (List.count_pos_iff.mpr hname).ne' h0
        refine List.mem_append_left _ (List.mem_append_right _ ?_)
        exact List.mem_replicate.mpr ⟨hcnt, rfl⟩
      · cases hdaysj : infoj.cycle_time_days with
        | none =>
          rw [hdaysj] at heq
          exact ih acc data heq hirest hcalc hdays name hname
        | some ctj =>
          rw [hdaysj] at heq
          exact ih _ data heq hirest hcalc hdays name hname

/-- Elements of `insertRanked x l` are `x` or elements of `l`. -/
theorem mem_insertRanked (x : String × Stats) (l : List (String × Stats))
    (z : String × Stats) :
    z ∈ insertRanked x l → z = x ∨ z ∈ l := by
  induction l with
  | nil =>
    intro h
    simp only [insertRanked, List.mem_singleton] at h
    exact Or.inl h
  | cons y ys ih =>
    intro h
    rw [insertRanked] at h
    by_cases hle : y.2.average ≤ x.2.average
    · rw [if_pos hle] at h
      rcases List.mem_cons.mp h with h1 | h2
      · exact Or.inl h1
      · exact Or.inr h2
    · rw [if_neg hle] at h
      rcases List.mem_cons.mp h with h1 | h2
      · exact Or.inr (h1 ▸ List.mem_cons_self _ _)
      · rcases ih h2 with h3 | h4
        · exact Or.inl h3
        · exact Or.inr (List.mem_cons_of_mem _ h4)

/-- Lemma: `insertRanked` preserves the descending-by-average invariant. -/
theorem insertRanked_pairwise (x : String × Stats) (l : List (String × Stats))
    (h : l.Pairwise (fun a b => b.2.average ≤ a.2.average)) :
    (insertRanked x l).Pairwise (fun a b => b.2.average ≤ a.2.average) := by
  induction l with
  | nil => simp [insertRanked]
  | cons y ys ih =>
    rw [insertRanked]
    rcases List.pairwise_cons.mp h with ⟨hy, hys⟩
    by_cases hle : y.2.average ≤ x.2.average
    · rw [if_pos hle]
      refine List.pairwise_cons.mpr ⟨?_, h⟩
      intro z hz
      rcases List.mem_cons.mp hz with h1 | h2
      · exact h1 ▸ hle
      · exact le_trans (hy z h2) hle
    · rw [if_neg hle]
      refine List.pairwise_cons.mpr ⟨?_, ih hys⟩
      intro z hz
      rcases mem_insertRanked x ys z hz with h1 | h2
      · exact h1 ▸ le_of_lt (lt_of_not_le hle)
      · exact hy z h2

/-- Lemma: `insertRanked` places the new element in front of every element of
equal average (the skipped elements all have a strictly greater average),
so filtering on any average value commutes with the insertion. -/
theorem filter_insertRanked (x : String × Stats) (l : List (String × Stats))
    (c : Rat) :
    (insertRanked x l).filter (fun g => g.2.average == c)
      = if x.2.average = c
        then x :: l.filter (fun g => g.2.average == c)
        else l.filter (fun g => g.2.average == c) := by
  induction l with
  | nil =>
    by_cases h : x.2.average = c
    · simp [insertRanked, List.filter_cons, h]
    · simp [insertRanked, List.filter_cons, beq_eq_false_iff_ne.mpr h, h]
  | cons y ys ih =>
    rw [insertRanked]
    by_cases hle : y.2.average ≤ x.2.average
    · rw [if_pos hle, List.filter_cons]
      by_cases h : x.2.average = c
      · simp [h]
      · simp [h, beq_eq_false_iff_ne.mpr h]
    · rw [if_neg hle, List.filter_cons, ih]
      by_cases h : x.2.average = c
      · have hy : y.2.average ≠ c := by
          intro hyc
          exact hle (le_of_eq (by rw [hyc, h]))
        simp [h, List.filter_cons, beq_eq_false_iff_ne.mpr hy]
      · by_cases hyc : y.2.average = c
        · simp [h, List.filter_cons, hyc]
        · simp [h, List.filter_cons, beq_eq_false_iff_ne.mpr hyc]

/-- Lemma: `sortRanked` output is pairwise descending by average. -/
theorem sortRanked_pairwise (l : List (String × Stats)) :
    (sortRanked l).Pairwise (fun a b => b.2.average ≤ a.2.average) := by
  induction l with
  | nil => exact List.Pairwise.nil
  | cons x xs ih => exact insertRanked_pairwise x _ ih

/-- Lemma: `sortRanked` is stable: restricted to any single average value it is
the identity, so equal-average groups keep their original order. -/
theorem sortRanked_filter (l : List (String × Stats)) (c : Rat) :
    (sortRanked l).filter (fun g => g.2.average == c)
      = l.filter (fun g => g.2.average == c) := by
  induction l with
  | nil => rfl
  | cons x xs ih =>
    rw [sortRanked, filter_insertRanked, List.filter_cons]
    by_cases h : x.2.average = c
    · rw [if_pos h, ih]
      simp [h]
    · rw [if_neg h, ih]
      simp [beq_eq_false_iff_ne.mpr h]

/-- Destructor for a successful `Except` bind. -/
theorem except_bind_ok {α β : Type} {e : Except String α}
    {f : α → Except String β} {b : β}
    (h : (e >>= f) = .ok b) : ∃ a, e = .ok a ∧ f a = .ok b := by
  cases e with
  | error err =>
    simp only [bind, Except.bind] at h
    exact Except.noConfusion h
  | ok a =>
    refine ⟨a, rfl, ?_⟩
    simpa only [bind, Except.bind] using h

/-- Destructor for a successful `Except` pure. -/
theorem except_pure_ok {α : Type} {a b : α}
    (h : (pure a : Except String α) = .ok b) : a = b := by
  simpa only [pure, Except.pure, Except.ok.injEq] using h

/-- C1, counterexample.  The claim says a transition whose normalized
target status is in both configured sets updates both timestamps.  On the
code, `"Done"` configured in both sets updates only `in_progress_date`
(the `elif` at line 298 is not reached); `done_date` stays absent, so the
predicted both-updated result is not produced. -/
theorem c1_dual_match_counterexample :
    calculate_cycle_time c1issue ["In Progress", "Done"] ["Done"]
      = .ok { in_progress_date := some ⟨2024, 3, 4, 10, 0, 0⟩,
              done_date := none, cycle_time_days := none } ∧
    calculate_cycle_time c1issue ["In Progress", "Done"] ["Done"]
      ≠ .ok { in_progress_date := some ⟨2024, 3, 4, 10, 0, 0⟩,
              done_date := some ⟨2024, 3, 4, 10, 0, 0⟩,
              cycle_time_days := some 0 } := by
  exact ⟨by decide, by decide⟩

/-- C1, amended: a status transition whose normalized target status is in
both configured sets updates only `in_progress_date` (the `if` branch of
line 294 wins and the `elif` of line 298 is skipped); `done_date` is left
unchanged. -/
theorem c1_dual_match_updates_in_progress_only
    (ipl dl : List String) (created : PyDateTime) (acc : DatePair)
    (item : HistoryItem)
    (hf : item.field = some "status")
    (hip : ipl.contains (lowerStrip (item.toString.getD "")) = true)
    (_hdl : dl.contains (lowerStrip (item.toString.getD "")) = true) :
    scan_items ipl dl created [item] acc = (some created, acc.2) := by
  have hip' : lowerStrip (item.toString.getD "") ∈ ipl := by simpa using hip
  simp [scan_items, hf, hip']

/-- Witness for `c1_dual_match_updates_in_progress_only`. -/
theorem c1_dual_match_witness :
    scan_items ["done"] ["done"] ⟨2024, 3, 4, 10, 0, 0⟩
      [{ field := some "status", toString := some "Done" }] (none, none)
      = (some ⟨2024, 3, 4, 10, 0, 0⟩, none) :=
  c1_dual_match_updates_in_progress_only ["done"] ["done"]
    ⟨2024, 3, 4, 10, 0, 0⟩ (none, none)
    { field := some "status", toString := some "Done" }
    rfl (by decide) (by decide)

/-- C2, counterexample.  Two flaws of the claim at concrete inputs:
(1) a negative half-day duration gives `cycle_time_days = -1`
(`timedelta.days` floors toward minus infinity) where truncation toward
zero would give `0`; (2) with only `in_progress_date` present the
Calculator returns that timestamp, not all-absent fields. -/
theorem c2_calculator_counterexample :
    calculate_cycle_time c2issue ["In Progress"] ["Done"]
      = .ok { in_progress_date := some ⟨2024, 1, 5, 12, 0, 0⟩,
              done_date := some ⟨2024, 1, 5, 0, 0, 0⟩,
              cycle_time_days := some (-1) } ∧
    Int.tdiv (toSeconds ⟨2024, 1, 5, 0, 0, 0⟩ - toSeconds ⟨2024, 1, 5, 12, 0, 0⟩)
      86400 = 0 ∧
    ((-1 : Int) ≠ 0) ∧
    cycle_from_dates (some ⟨2024, 1, 5, 12, 0, 0⟩) none
      = { in_progress_date := some ⟨2024, 1, 5, 12, 0, 0⟩,
          done_date := none, cycle_time_days := none } ∧
    ({ in_progress_date := some ⟨2024, 1, 5, 12, 0, 0⟩,
       done_date := none, cycle_time_days := none } : CycleInfo)
      ≠ { in_progress_date := none, done_date := none,
          cycle_time_days := none } := by
  exact ⟨by decide, by decide, by decide, by decide, by decide⟩

/-- C2, amended: if either timestamp is absent the Calculator returns an
absent `cycle_time_days` together with the timestamps exactly as found (a
present one stays present); if both are present, `cycle_time_days` is the
floor (toward minus infinity, which agrees with truncation toward zero
for whole-day and non-negative durations) of the day difference.  It is a
total function (never raises) and negative values pass through
unmodified. -/
theorem c2_calculator_amended (a b : Option PyDateTime) :
    ((a = none ∨ b = none) →
      cycle_from_dates a b
        = { in_progress_date := a, done_date := b, cycle_time_days := none }) ∧
    (∀ x y, a = some x → b = some y →
      cycle_from_dates a b
        = { in_progress_date := a, done_date := b,
            cycle_time_days :=
              some (Int.fdiv (toSeconds y - toSeconds x) 86400) }) := by
  cases a with
  | none =>
    refine ⟨fun _ => ?_, fun x y hx _ => by cases hx⟩
    cases b <;> rfl
  | some xa =>
    cases b with
    | none =>
      exact ⟨fun _ => rfl, fun x y _ hy => by cases hy⟩
    | some yb =>
      refine ⟨fun h => ?_, fun x y hx hy => ?_⟩
      · rcases h with h | h <;> cases h
      · cases hx
        cases hy
        rfl

/-- Witness for `c2_calculator_amended`: the spec's negative-duration
example (`Done = 2024-01-01`, `In Progress = 2024-01-05`) yields `-4`,
and a missing done date propagates the present in-progress date. -/
theorem c2_calculator_witness :
    cycle_from_dates (some ⟨2024, 1, 5, 0, 0, 0⟩) (some ⟨2024, 1, 1, 0, 0, 0⟩)
      = { in_progress_date := some ⟨2024, 1, 5, 0, 0, 0⟩,
          done_date := some ⟨2024, 1, 1, 0, 0, 0⟩,
          cycle_time_days := some (-4) } ∧
    cycle_from_dates none (some ⟨2024, 1, 1, 0, 0, 0⟩)
      = { in_progress_date := none, done_date := some ⟨2024, 1, 1, 0, 0, 0⟩,
          cycle_time_days := none } := by
  constructor
  · have h := (c2_calculator_amended (some ⟨2024, 1, 5, 0, 0, 0⟩)
      (some ⟨2024, 1, 1, 0, 0, 0⟩)).2 _ _ rfl rfl
    rw [h]
    decide
  · exact (c2_calculator_amended none (some ⟨2024, 1, 1, 0, 0, 0⟩)).1
      (Or.inl rfl)

/-- The markdown issue formatter emits exactly the precomputed Calculator
results. -/
theorem markdown_cycle_values_eq (issues : List Issue) (ips ds : List String) :
    markdown_cycle_values issues ips ds = calculator_results issues ips ds := by
  induction issues with
  | nil => rfl
  | cons i rest ih => simp only [markdown_cycle_values, calculator_results, ih]

/-- The HTML issue formatter emits exactly the precomputed Calculator
results. -/
theorem html_cycle_values_eq (issues : List Issue) (ips ds : List String) :
    html_cycle_values issues ips ds = calculator_results issues ips ds := by
  induction issues with
  | nil => rfl
  | cons i rest ih => simp only [html_cycle_values, calculator_results, ih]

/-- The CSV branch emits exactly the precomputed Calculator results. -/
theorem csv_cycle_values_eq (issues : List Issue) (ips ds : List String) :
    csv_cycle_values issues ips ds = calculator_results issues ips ds := by
  induction issues with
  | nil => rfl
  | cons i rest ih => simp only [csv_cycle_values, calculator_results, ih]

/-- The confluence branch emits exactly the precomputed Calculator
results. -/
theorem confluence_cycle_values_eq (issues : List Issue) (ips ds : List String) :
    confluence_cycle_values issues ips ds = calculator_results issues ips ds := by
  induction issues with
  | nil => rfl
  | cons i rest ih => simp only [confluence_cycle_values, calculator_results, ih]

/-- The console branch emits exactly the precomputed Calculator
results. -/
theorem console_cycle_values_eq (issues : List Issue) (ips ds : List String) :
    console_cycle_values issues ips ds = calculator_results issues ips ds := by
  induction issues with
  | nil => rfl
  | cons i rest ih => simp only [console_cycle_values, calculator_results, ih]

/-- C3: every one of the five encodings serializes, per issue, the value
of the same deterministic Calculator on the same input, namely the
per-issue results `main` precomputes (lines 774-778), so the numeric
cycle-time values are identical across all five encodings — there is no
recomputation drift. -/
theorem c3_no_recomputation_drift (issues : List Issue) (ips ds : List String) :
    markdown_cycle_values issues ips ds = calculator_results issues ips ds ∧
    html_cycle_values issues ips ds = calculator_results issues ips ds ∧
    csv_cycle_values issues ips ds = calculator_results issues ips ds ∧
    confluence_cycle_values issues ips ds = calculator_results issues ips ds ∧
    console_cycle_values issues ips ds = calculator_results issues ips ds :=
  ⟨markdown_cycle_values_eq issues ips ds, html_cycle_values_eq issues ips ds,
   csv_cycle_values_eq issues ips ds, confluence_cycle_values_eq issues ips ds,
   console_cycle_values_eq issues ips ds⟩

/-- C5: a history entry with no `created` key makes the History Reducer
raise (`history["created"]` is a bare subscript at line 287, unlike the
defensive `.get` used for the other fields), and the exception propagates
through aggregation — the stages are NOT total as the claim demands.  A
transition with no `toString`, in contrast, is skipped as the claim
says. -/
theorem c5_missing_timestamp_raises :
    calculate_cycle_time c5issue default_in_progress_statuses
      default_done_statuses = .error "KeyError: created" ∧
    analyze_components [c5issue] default_in_progress_statuses
      default_done_statuses = .error "KeyError: created" ∧
    calculate_cycle_time c5issue_no_to default_in_progress_statuses
      default_done_statuses
      = .ok { in_progress_date := none, done_date := none,
              cycle_time_days := none } := by
  exact ⟨by decide, by decide, by decide⟩

/-- The fold of `eventStep` from the initial `(None, None)` pair computes
the two last-matching-event timestamps. -/
theorem foldl_eventStep_none (ipl dl : List String)
    (evs : List (PyDateTime × String)) :
    evs.foldl (eventStep ipl dl) (none, none)
      = (lastMatchTime evs (fun s => ipl.contains s),
         lastMatchTime evs (fun s => !ipl.contains s && dl.contains s)) := by
  rw [foldl_eventStep_proj]
  exact Prod.ext
    (foldl_setIf_last_none (fun s => ipl.contains s) evs)
    (foldl_setIf_last_none (fun s => !ipl.contains s && dl.contains s) evs)

/-- C4, counterexample.  With `inProgressStatuses = ["Active"]` and
`doneStatuses = ["Active", "Closed"]`, the last event whose target status
is in the done set is the `"Active"` event at `2024-02-05`, so the
claim's independent last-wins rule predicts that timestamp for
`done_at`; the code instead leaves `done_date` at the earlier `"Closed"`
event (the `elif` skips done-matching events that also match
in-progress). -/
theorem c4_last_wins_counterexample :
    calculate_cycle_time c4issue ["Active"] ["Active", "Closed"]
      = .ok { in_progress_date := some ⟨2024, 2, 5, 0, 0, 0⟩,
              done_date := some ⟨2024, 2, 1, 0, 0, 0⟩,
              cycle_time_days := some (-4) } ∧
    parseHistories c4issue.histories
      = .ok [(⟨2024, 2, 1, 0, 0, 0⟩,
               [{ field := some "status", toString := some "Closed" }]),
             (⟨2024, 2, 5, 0, 0, 0⟩,
               [{ field := some "status", toString := some "Active" }])] ∧
    lastMatchTime
        (statusEvents
          [(⟨2024, 2, 1, 0, 0, 0⟩,
             [{ field := some "status", toString := some "Closed" }]),
           (⟨2024, 2, 5, 0, 0, 0⟩,
             [{ field := some "status", toString := some "Active" }])])
        (fun s => ((["Active", "Closed"] : List String).map lowerStrip).contains s)
      = some ⟨2024, 2, 5, 0, 0, 0⟩ ∧
    some (⟨2024, 2, 1, 0, 0, 0⟩ : PyDateTime)
      ≠ some (⟨2024, 2, 5, 0, 0, 0⟩ : PyDateTime) := by
  exact ⟨by decide, by decide, by decide, by decide⟩

/-- C4, amended: over a parseable history the reducer scans start-to-end
and `in_progress_date` is the timestamp of the last status event whose
normalized target is in `inProgressStatuses`, while `done_date` is the
timestamp of the last status event whose normalized target is in
`doneStatuses` *and not in* `inProgressStatuses` (the `elif` gives the
in-progress test precedence); for disjoint configured sets this is
exactly the claim's independent last-wins rule.  An empty history yields
both timestamps (and the day count) absent. -/
theorem c4_last_wins_amended (issue : Issue) (ips ds : List String)
    (phs : List (PyDateTime × List HistoryItem))
    (hparse : parseHistories issue.histories = .ok phs) :
    calculate_cycle_time issue ips ds
      = .ok (cycle_from_dates
          (lastMatchTime (statusEvents phs)
            (fun s => (ips.map lowerStrip).contains s))
          (lastMatchTime (statusEvents phs)
            (fun s => !(ips.map lowerStrip).contains s
              && (ds.map lowerStrip).contains s))) ∧
    (issue.histories = [] →
      calculate_cycle_time issue ips ds
        = .ok { in_progress_date := none, done_date := none,
                cycle_time_days := none }) := by
  constructor
  · simp only [calculate_cycle_time]
    rw [scan_histories_eq_foldl, hparse]
    simp only [Except.map, foldl_eventStep_none, bind, Except.bind, pure,
      Except.pure]
  · intro h
    simp only [calculate_cycle_time]
    rw [h]
    rfl

/-- Witness for `c4_last_wins_amended`, at the spec's worked example. -/
theorem c4_last_wins_witness :
    calculate_cycle_time x1issue default_in_progress_statuses
        default_done_statuses
      = .ok (cycle_from_dates
          (lastMatchTime
            (statusEvents
              [(⟨2024, 1, 2, 9, 0, 0⟩,
                 [{ field := some "status", toString := some "In Progress" }]),
               (⟨2024, 1, 10, 17, 0, 0⟩,
                 [{ field := some "status", toString := some "Done" }])])
            (fun s => (default_in_progress_statuses.map lowerStrip).contains s))
          (lastMatchTime
            (statusEvents
              [(⟨2024, 1, 2, 9, 0, 0⟩,
                 [{ field := some "status", toString := some "In Progress" }]),
               (⟨2024, 1, 10, 17, 0, 0⟩,
                 [{ field := some "status", toString := some "Done" }])])
            (fun s => !(default_in_progress_statuses.map lowerStrip).contains s
              && (default_done_statuses.map lowerStrip).contains s))) :=
  (c4_last_wins_amended x1issue default_in_progress_statuses
    default_done_statuses _ (by decide)).1

/-- C6, counterexample.  With both aggregation flags enabled on the same
issue list, the HTML and confluence documents are byte-identical to the
flag-less ones (those branches of `main` never read the flags and contain
no analysis section), while the markdown and console documents change —
so section presence is NOT independent of the encoding. -/
theorem c6_sections_counterexample :
    html_document c6argsOn [c6issue] default_in_progress_statuses
        default_done_statuses
      = html_document c6argsOff [c6issue] default_in_progress_statuses
        default_done_statuses ∧
    confluence_document c6argsOn [c6issue] default_in_progress_statuses
        default_done_statuses
      = confluence_document c6argsOff [c6issue] default_in_progress_statuses
        default_done_statuses ∧
    markdown_document c6argsOn [c6issue] default_in_progress_statuses
        default_done_statuses
      ≠ markdown_document c6argsOff [c6issue] default_in_progress_statuses
        default_done_statuses ∧
    console_document c6argsOn [c6issue] default_in_progress_statuses
        default_done_statuses
      ≠ console_document c6argsOff [c6issue] default_in_progress_statuses
        default_done_statuses := by
  exact ⟨rfl, rfl, by decide, by decide⟩

/-- C6, amended: for the markdown and plain-text (console) encodings,
supplying the component- or label-aggregation input makes the produced
document contain the corresponding analysis section; the HTML and wiki
markup (confluence) encodings never contain such a section and their
output does not depend on the aggregation flags at all. -/
theorem c6_sections_amended (args : MainArgs) (issues : List Issue)
    (ips ds : List String) :
    (∀ out, markdown_document args issues ips ds = .ok out →
      (args.component_analysis = true →
        ∃ data, analyze_components issues ips ds = .ok data ∧
          format_markdown_component_analysis data ∈ out) ∧
      (args.label_analysis = true →
        ∃ data, analyze_labels issues ips ds = .ok data ∧
          format_markdown_label_analysis data ∈ out)) ∧
    (∀ out, console_document args issues ips ds = .ok out →
      (args.component_analysis = true →
        ∃ data, analyze_components issues ips ds = .ok data ∧
          (display_component_analysis data).Sublist out) ∧
      (args.label_analysis = true →
        ∃ data, analyze_labels issues ips ds = .ok data ∧
          (display_label_analysis data).Sublist out)) ∧
    (∀ c1 l1 c2 l2 : Bool,
      html_document
          { args with component_analysis := c1, label_analysis := l1 }
          issues ips ds
        = html_document
          { args with component_analysis := c2, label_analysis := l2 }
          issues ips ds) ∧
    (∀ c1 l1 c2 l2 : Bool,
      confluence_document
          { args with component_analysis := c1, label_analysis := l1 }
          issues ips ds
        = confluence_document
          { args with component_analysis := c2, label_analysis := l2 }
          issues ips ds) := by
  refine ⟨?_, ?_, fun _ _ _ _ => rfl, fun _ _ _ _ => rfl⟩
  · intro out hout
    simp only [markdown_document] at hout
    obtain ⟨valid, hv, hout⟩ := except_bind_ok hout
    constructor
    · intro hflag
      rw [hflag, if_pos rfl] at hout
      obtain ⟨data, hdata, hout⟩ := except_bind_ok hout
      obtain ⟨comp, hcomp, hout⟩ := except_bind_ok hout
      have hcomp' := except_pure_ok hcomp
      refine ⟨data, hdata, ?_⟩
      cases hlf : args.label_analysis with
      | true =>
        rw [hlf, if_pos rfl] at hout
        obtain ⟨ldata, hldata, hout⟩ := except_bind_ok hout
        obtain ⟨lab, hlab, hout⟩ := except_bind_ok hout
        obtain ⟨iss, hiss, hout⟩ := except_bind_ok hout
        have hout' := except_pure_ok hout
        rw [← hout', ← hcomp']
        simp
      | false =>
        rw [hlf, if_neg Bool.false_ne_true] at hout
        obtain ⟨lab, hlab, hout⟩ := except_bind_ok hout
        obtain ⟨iss, hiss, hout⟩ := except_bind_ok hout
        have hout' := except_pure_ok hout
        rw [← hout', ← hcomp']
        simp
    · intro hflag
      cases hcf : args.component_analysis with
      | true =>
        rw [hcf, if_pos rfl] at hout
        obtain ⟨data, hdata, hout⟩ := except_bind_ok hout
        obtain ⟨comp, hcomp, hout⟩ := except_bind_ok hout
        have hcomp' := except_pure_ok hcomp
        rw [hflag, if_pos rfl] at hout
        obtain ⟨ldata, hldata, hout⟩ := except_bind_ok hout
        obtain ⟨lab, hlab, hout⟩ := except_bind_ok hout
        obtain ⟨iss, hiss, hout⟩ := except_bind_ok hout
        have hout' := except_pure_ok hout
        have hlab' := except_pure_ok hlab
        refine ⟨ldata, hldata, ?_⟩
        rw [← hout', ← hlab']
        simp
      | false =>
        rw [hcf, if_neg Bool.false_ne_true] at hout
        obtain ⟨comp, hcomp, hout⟩ := except_bind_ok hout
        rw [hflag, if_pos rfl] at hout
        obtain ⟨ldata, hldata, hout⟩ := except_bind_ok hout
        obtain ⟨lab, hlab, hout⟩ := except_bind_ok hout
        obtain ⟨iss, hiss, hout⟩ := except_bind_ok hout
        have hout' := except_pure_ok hout
        have hlab' := except_pure_ok hlab
        refine ⟨ldata, hldata, ?_⟩
        rw [← hout', ← hlab']
        simp
  · intro out hout
    simp only [console_document] at hout
    obtain ⟨valid, hv, hout⟩ := except_bind_ok hout
    obtain ⟨iss, hiss, hout⟩ := except_bind_ok hout
    constructor
    · intro hflag
      rw [hflag, if_pos rfl] at hout
      obtain ⟨data, hdata, hout⟩ := except_bind_ok hout
      obtain ⟨comp, hcomp, hout⟩ := except_bind_ok hout
      have hcomp' := except_pure_ok hcomp
      refine ⟨data, hdata, ?_⟩
      cases hlf : args.label_analysis with
      | true =>
        rw [hlf, if_pos rfl] at hout
        obtain ⟨ldata, hldata, hout⟩ := except_bind_ok hout
        obtain ⟨lab, hlab, hout⟩ := except_bind_ok hout
        have hout' := except_pure_ok hout
        rw [← hout', ← hcomp']
        exact ((List.sublist_append_right _ _).trans
          (List.sublist_append_left _ _)).cons _
      | false =>
        rw [hlf, if_neg Bool.false_ne_true] at hout
        obtain ⟨lab, hlab, hout⟩ := except_bind_ok hout
        have hout' := except_pure_ok hout
        rw [← hout', ← hcomp']
        exact ((List.sublist_append_right _ _).trans
          (List.sublist_append_left _ _)).cons _
    · intro hflag
      cases hcf : args.component_analysis with
      | true =>
        rw [hcf, if_pos rfl] at hout
        obtain ⟨data, hdata, hout⟩ := except_bind_ok hout
        obtain ⟨comp, hcomp, hout⟩ := except_bind_ok hout
        have hcomp' := except_pure_ok hcomp
        rw [hflag, if_pos rfl] at hout
        obtain ⟨ldata, hldata, hout⟩ := except_bind_ok hout
        obtain ⟨lab, hlab, hout⟩ := except_bind_ok hout
        have hout' := except_pure_ok hout
        have hlab' := except_pure_ok hlab
        refine ⟨ldata, hldata, ?_⟩
        rw [← hout', ← hlab']
        exact (List.sublist_append_right _ _).cons _
      | false =>
        rw [hcf, if_neg Bool.false_ne_true] at hout
        obtain ⟨comp, hcomp, hout⟩ := except_bind_ok hout
        rw [hflag, if_pos rfl] at hout
        obtain ⟨ldata, hldata, hout⟩ := except_bind_ok hout
        obtain ⟨lab, hlab, hout⟩ := except_bind_ok hout
        have hout' := except_pure_ok hout
        have hlab' := except_pure_ok hlab
        refine ⟨ldata, hldata, ?_⟩
        rw [← hout', ← hlab']
        exact (List.sublist_append_right _ _).cons _

/-- Witness for `c6_sections_amended`: with the component flag set, the
markdown document of a concrete run contains the component-analysis
section. -/
theorem c6_sections_witness :
    ∃ out, markdown_document c6argsOn [c6issue] default_in_progress_statuses
        default_done_statuses = .ok out ∧
      ∃ data, analyze_components [c6issue] default_in_progress_statuses
          default_done_statuses = .ok data ∧
        format_markdown_component_analysis data ∈ out := by
  obtain ⟨out, hout⟩ : ∃ out, markdown_document c6argsOn [c6issue]
      default_in_progress_statuses default_done_statuses = .ok out := ⟨_, rfl⟩
  have h := (c6_sections_amended c6argsOn [c6issue]
    default_in_progress_statuses default_done_statuses).1 out hout
  exact ⟨out, hout, h.1 rfl⟩

/-- C7: in both aggregation dimensions, every group of the output is
non-empty and every one of its tickets comes from an issue of the input
whose Calculator result has a present day count equal to the ticket's;
contrapositively, an issue with an absent cycle-time result contributes to
no group. -/
theorem c7_groups_only_with_present_results (issues : List Issue)
    (ips ds : List String) (cdata ldata : List (String × List Ticket))
    (hc : analyze_components issues ips ds = .ok cdata)
    (hl : analyze_labels issues ips ds = .ok ldata) :
    (∀ g ∈ cdata, g.2 ≠ [] ∧ ∀ y ∈ g.2,
      ∃ i ∈ issues, ∃ info, calculate_cycle_time i ips ds = .ok info ∧
        info.cycle_time_days = some y.cycle_time ∧
        y = mkTicket i y.cycle_time info) ∧
    (∀ g ∈ ldata, g.2 ≠ [] ∧ ∀ y ∈ g.2,
      ∃ i ∈ issues, ∃ info, calculate_cycle_time i ips ds = .ok info ∧
        info.cycle_time_days = some y.cycle_time ∧
        y = mkTicket i y.cycle_time info) := by
  constructor
  · intro g hg
    refine ⟨analyze_components_go_nonempty ips ds issues [] cdata
      (by simp) hc g hg, ?_⟩
    intro y hy
    rcases analyze_components_go_sound ips ds issues [] cdata hc g hg y hy with
      ⟨g', hg', _⟩ | h
    · exact absurd hg' (List.not_mem_nil g')
    · exact h
  · intro g hg
    refine ⟨analyze_labels_go_nonempty ips ds issues [] ldata
      (by simp) hl g hg, ?_⟩
    intro y hy
    rcases analyze_labels_go_sound ips ds issues [] ldata hl g hg y hy with
      ⟨g', hg', _⟩ | h
    · exact absurd hg' (List.not_mem_nil g')
    · exact h

/-- Witness for `c7_groups_only_with_present_results`: concrete run with
one issue with and one without a cycle time. -/
theorem c7_groups_witness :
    [mkTicket c7issueA 8 info8] ≠ [] ∧
    ∃ i ∈ [c7issueA, c7issueB], ∃ info,
      calculate_cycle_time i default_in_progress_statuses
        default_done_statuses = .ok info ∧
      info.cycle_time_days = some (mkTicket c7issueA 8 info8).cycle_time ∧
      mkTicket c7issueA 8 info8
        = mkTicket i (mkTicket c7issueA 8 info8).cycle_time info := by
  have h := (c7_groups_only_with_present_results [c7issueA, c7issueB]
      default_in_progress_statuses default_done_statuses
      [("ui", [mkTicket c7issueA 8 info8])]
      [("No labels", [mkTicket c7issueA 8 info8])]
      (by decide) (by decide)).1
      ("ui", [mkTicket c7issueA 8 info8]) (by simp)
  exact ⟨h.1, h.2 (mkTicket c7issueA 8 info8) (by simp)⟩

/-- C8: an issue with a present cycle time has its ticket appended to
every group named by its dimension values, in both dimensions (one group
per label occurrence and per component); an issue whose dimension value
set is empty is filed under the single sentinel name `"No components"` /
`"No labels"`. -/
theorem c8_fanout_to_every_dimension_value (issues : List Issue)
    (ips ds : List String) (i : Issue) (info : CycleInfo) (ct : Int)
    (hi : i ∈ issues)
    (hcalc : calculate_cycle_time i ips ds = .ok info)
    (hdays : info.cycle_time_days = some ct) :
    (∀ cdata, analyze_components issues ips ds = .ok cdata →
      ∀ name ∈ componentNames i,
        mkTicket i ct info ∈ groupTickets cdata name) ∧
    (∀ ldata, analyze_labels issues ips ds = .ok ldata →
      ∀ name ∈ labelNames i, mkTicket i ct info ∈ groupTickets ldata name) ∧
    (i.components = [] → componentNames i = ["No components"]) ∧
    (i.labels = [] → labelNames i = ["No labels"]) := by
  refine ⟨?_, ?_, ?_, ?_⟩
  · intro cdata hc name hname
    exact analyze_components_go_fanout ips ds issues i info ct [] cdata hc
      hi hcalc hdays name hname
  · intro ldata hl name hname
    exact analyze_labels_go_fanout ips ds issues i info ct [] ldata hl
      hi hcalc hdays name hname
  · intro h
    simp [componentNames, h]
  · intro h
    simp [labelNames, h]

/-- Witness for `c8_fanout_to_every_dimension_value`: the labels
`["bug", "urgent"]` both receive the issue's ticket. -/
theorem c8_fanout_witness :
    mkTicket c8issue 8 info8
      ∈ groupTickets [("bug", [mkTicket c8issue 8 info8]),
          ("urgent", [mkTicket c8issue 8 info8])] "bug" ∧
    mkTicket c8issue 8 info8
      ∈ groupTickets [("bug", [mkTicket c8issue 8 info8]),
          ("urgent", [mkTicket c8issue 8 info8])] "urgent" := by
  have h := (c8_fanout_to_every_dimension_value [c8issue]
      default_in_progress_statuses default_done_statuses c8issue info8 8
      (by simp) (by decide) (by decide)).2.1
      [("bug", [mkTicket c8issue 8 info8]),
       ("urgent", [mkTicket c8issue 8 info8])] (by decide)
  exact ⟨h "bug" (by decide), h "urgent" (by decide)⟩

/-- C9: the ranking consumed by the display and markdown analysis
renderers lists the groups in descending order of mean cycle time
(`Pairwise` below), and for every mean value the groups carrying exactly
that mean appear in the same order as in the statistics mapping — the
sort is stable and applies no secondary key.  (Python's float means are
modelled by exact rationals.) -/
theorem c9_ranking_descending_and_stable
    (data : List (String × List Ticket)) :
    (component_ranking data).Pairwise
      (fun a b => b.2.average ≤ a.2.average) ∧
    (∀ c : Rat, (component_ranking data).filter (fun g => g.2.average == c)
        = (build_stats data).filter (fun g => g.2.average == c)) ∧
    (label_ranking data).Pairwise (fun a b => b.2.average ≤ a.2.average) ∧
    (∀ c : Rat, (label_ranking data).filter (fun g => g.2.average == c)
        = (build_stats data).filter (fun g => g.2.average == c)) :=
  ⟨sortRanked_pairwise _, fun c => sortRanked_filter _ c,
   sortRanked_pairwise _, fun c => sortRanked_filter _ c⟩

/-- Folding `min` over copies of the same ticket keeps its value. -/
theorem foldl_min_replicate (k : Nat) (tk : Ticket) :
    (List.replicate k tk).foldl (fun a x => Min.min a x.cycle_time)
      tk.cycle_time = tk.cycle_time := by
  induction k with
  | zero => rfl
  | succ n ih =>
    rw [List.replicate_succ, List.foldl_cons, min_self]
    exact ih

/-- Folding `max` over copies of the same ticket keeps its value. -/
theorem foldl_max_replicate (k : Nat) (tk : Ticket) :
    (List.replicate k tk).foldl (fun a x => Max.max a x.cycle_time)
      tk.cycle_time = tk.cycle_time := by
  induction k with
  | zero => rfl
  | succ n ih =>
    rw [List.replicate_succ, List.foldl_cons, max_self]
    exact ih

/-- C10: an issue carrying the same label `n` times (and a present cycle
time) has its ticket appended `n` times to that label's group, so the
group statistics count it `n` times: `count = n`, `total = n * ct`, and
`min = max = ct`. -/
theorem c10_duplicate_label_multiplicity (issue : Issue)
    (ips ds : List String) (info : CycleInfo) (ct : Int) (name : String)
    (hcalc : calculate_cycle_time issue ips ds = .ok info)
    (hdays : info.cycle_time_days = some ct)
    (hmem : name ∈ issue.labels) :
    ∃ data, analyze_labels [issue] ips ds = .ok data ∧
      groupTickets data name
        = List.replicate (issue.labels.count name) (mkTicket issue ct info) ∧
      ∀ s, stats_of (groupTickets data name) = some s →
        s.count = issue.labels.count name ∧
        s.total = (issue.labels.count name : Int) * ct ∧
        s.min = ct ∧ s.max = ct := by
  have hnames : labelNames issue = issue.labels := by
    unfold labelNames
    rw [if_neg (List.ne_nil_of_mem hmem)]
  refine ⟨issue.labels.foldl
    (fun d n => addTicket d n (mkTicket issue ct info)) [], ?_, ?_, ?_⟩
  · simp only [analyze_labels, analyze_labels_go, hcalc, hdays, bind,
      Except.bind, hnames]
  · rw [groupTickets_foldl_addTicket]
    rfl
  · intro s hs
    rw [groupTickets_foldl_addTicket] at hs
    obtain ⟨k, hk⟩ : ∃ k, issue.labels.count name = k + 1 :=
      ⟨issue.labels.count name - 1,
        (Nat.succ_pred_eq_of_pos (List.count_pos_iff.mpr hmem)).symm⟩
    rw [hk] at hs
    have hrep : groupTickets [] name
        ++ List.replicate (k + 1) (mkTicket issue ct info)
        = mkTicket issue ct info
          :: List.replicate k (mkTicket issue ct info) := by
      rfl
    rw [hrep] at hs
    simp only [stats_of, Option.some.injEq] at hs
    subst hs
    rw [hk]
    refine ⟨by simp, ?_, ?_, ?_⟩
    · simp only [List.map_cons, List.map_replicate, List.sum_cons,
        List.sum_replicate, smul_eq_mul]
      show ct + (k : Int) * ct = ((k + 1 : Nat) : Int) * ct
      push_cast
      ring
    · show (List.replicate k (mkTicket issue ct info)).foldl
        (fun a x => Min.min a x.cycle_time)
        (mkTicket issue ct info).cycle_time = ct
      exact foldl_min_replicate k (mkTicket issue ct info)
    · show (List.replicate k (mkTicket issue ct info)).foldl
        (fun a x => Max.max a x.cycle_time)
        (mkTicket issue ct info).cycle_time = ct
      exact foldl_max_replicate k (mkTicket issue ct info)

/-- Witness for `c10_duplicate_label_multiplicity`: the label `"dup"`
carried twice yields a group with two copies of the ticket and statistics
counting the issue twice. -/
theorem c10_duplicate_label_witness :
    ∃ data, analyze_labels [c10issue] default_in_progress_statuses
        default_done_statuses = .ok data ∧
      groupTickets data "dup"
        = List.replicate 2 (mkTicket c10issue 8 info8) ∧
      ∀ s, stats_of (groupTickets data "dup") = some s →
        s.count = 2 ∧ s.total = (2 : Int) * 8 ∧ s.min = 8 ∧ s.max = 8 := by
  have h := c10_duplicate_label_multiplicity c10issue
    default_in_progress_statuses default_done_statuses info8 8 "dup"
    (by decide) (by decide) (by decide)
  have hcnt : c10issue.labels.count "dup" = 2 := by decide
  rw [hcnt] at h
  exact_mod_cast h
